import Mathlib

/-! Twin Messenger client (`script.js`)

A shallow embedding of the polling client: the transport adapter (`apiCall`),
the two polling loops (`loadMessages`, `loadContacts`), the message
reconciliation (`displayMessage`), the contact ordering (`renderContacts`)
and the buzz cooldown gate (`sendBuzz`).

The JavaScript globals, `sessionStorage`, the pending timeouts and the part of
the DOM the script reads back are fields of one `State`; every function of the
script becomes a function on `State`.  An `async` function that awaits the
network is split at its `await`: `fBegin` is the synchronous part up to the
request, `fResume` is the continuation that runs when the response arrives,
and `f` is the two run back to back.  Things the script only emits (requests,
alerts, tones, OS notifications) are appended to `State.effects`.
-/

namespace TwinMsg

/-! ## Data -/

/-- One element of `result.messages`.  `is_read` is `true` when the field is
not `0` (the script tests `msg.is_read == 0`). -/
structure Msg where
  id : Nat
  sender_name : String
  message : Option String
  created_at : String
  is_mine : Bool
  is_buzz : Bool
  is_read : Bool
deriving DecidableEq, Repr

/-- One element of `result.contacts`. -/
structure Contact where
  id : Nat
  name : String
  status : String
  unread_count : Nat
deriving DecidableEq, Repr

/-- The fields the script reads from a JSON value returned by the server, or
from a failure value built by `apiCall`.  `success` is the truthiness of the
`success` field. -/
structure JsonObj where
  success : Bool
  message : Option String
  messages : List Msg
  contacts : List Contact
deriving DecidableEq, Repr

/-- What `JSON.parse` can give back: `null`, on which reading `.success`
throws, or any other value. -/
inductive Json where
  | null
  | value (o : JsonObj)
deriving DecidableEq, Repr

/-- Outcome of `fetch(url, options)` followed by `response.text()`: either the
request throws, or a response with a status and a body arrives.  `parsed` is
what `JSON.parse(text)` gives on that body (`none` when it throws). -/
inductive Transport where
  | networkError (failedToFetch : Bool) (message : String)
  | response (status : Nat) (text : List Char) (parsed : Option Json)
deriving DecidableEq, Repr

/-- The keys of `sessionStorage` the script uses.  `twin_last_buzz_time` holds
`now.toString()` and is read back with `parseInt`, so it is kept as the
integer it denotes. -/
structure Storage where
  twin_sound_enabled : Option String
  twin_last_buzz_time : Option Int
  php_session_id : Option String
  user_id : Option String
  user_name : Option String
  user_email : Option String
  current_contact_id : Option String
  current_contact_name : Option String
deriving DecidableEq, Repr

/-- Result of `sessionStorage.clear()`. -/
def Storage.clear : Storage :=
  { twin_sound_enabled := none, twin_last_buzz_time := none, php_session_id := none,
    user_id := none, user_name := none, user_email := none,
    current_contact_id := none, current_contact_name := none }

/-- What the script emits.  `calledNewMessage` and `calledBuzzEffect` record
that `triggerNewMessageNotification(count)` and `triggerBuzzEffect()` were
entered. -/
inductive Effect where
  | fetch (endpoint : String) (method : String) (sessionId : Option String)
  | alert (text : String)
  | alertWait (wait : Int)
  | toneA
  | toneB
  | vibrate
  | shake (times distance : Nat) (flash : Bool)
  | osNotice (count : Nat)
  | scrollToBottom
  | calledNewMessage (count : Nat)
  | calledBuzzEffect
deriving DecidableEq, Repr

/-- The function a pending timeout will call: `() => loadMessages(true)` or
`loadContacts`. -/
inductive Callback where
  | loadMessages
  | loadContacts
deriving DecidableEq, Repr

/-- What the script observes of the page it runs in; none of it is changed by
the script. -/
structure Env where
  pathIncludesIndex : Bool
  pathIncludesMainHtml : Bool
  pathIncludesConversationHtml : Bool
  hasAudioContext : Bool
  notificationPermission : Option String
  canVibrate : Bool
  hasChatBox : Bool
  hasChatsContainer : Bool
deriving DecidableEq, Repr

/-- Globals of the script, `sessionStorage`, the pending timeouts, and the
rendered message and contact lists. -/
structure State where
  env : Env
  pollingTimer : Option Nat
  contactPollingTimer : Option Nat
  lastMessageId : Nat
  currentContactId : Option String
  totalUnreadCount : Nat
  storage : Storage
  timers : List (Nat × Callback)
  nextTimer : Nat
  rendered : List Msg
  contactRows : List Contact
  contactsPlaceholder : Bool
  scrollBottom : Int
  href : Option String
  effects : List Effect
deriving DecidableEq, Repr

def BUZZ_COOLDOWN : Int := 5000

/-- State at script load: the globals as declared, and the sound preference
defaulted to `'true'` when absent. -/
def initialState (env : Env) (storage : Storage) : State :=
  { env := env, pollingTimer := none, contactPollingTimer := none, lastMessageId := 0,
    currentContactId := none, totalUnreadCount := 0,
    storage := if storage.twin_sound_enabled = none
      then { storage with twin_sound_enabled := some "true" } else storage,
    timers := [], nextTimer := 1, rendered := [], contactRows := [],
    contactsPlaceholder := false, scrollBottom := 0, href := none, effects := [] }

/-- JavaScript truthiness of a value that is a string or `null`. -/
def truthy : Option String → Bool
  | some s => s != ""
  | none => false

def emit (e : Effect) (st : State) : State :=
  { st with effects := st.effects ++ [e] }

/-! ## Timers -/

def setTimeout (cb : Callback) (st : State) : State × Nat :=
  ({ st with timers := st.timers ++ [(st.nextTimer, cb)], nextTimer := st.nextTimer + 1 },
   st.nextTimer)

def clearTimeout (id : Nat) (st : State) : State :=
  { st with timers := st.timers.filter (fun t => t.1 != id) }

def stopPolling (st : State) : State :=
  let st := match st.pollingTimer with
    | some id => clearTimeout id st
    | none => st
  { st with pollingTimer := none }

def stopContactPolling (st : State) : State :=
  let st := match st.contactPollingTimer with
    | some id => clearTimeout id st
    | none => st
  { st with contactPollingTimer := none }

/-! ## Transport adapter -/

/-- Synchronous part of `apiCall`: the request leaves with the session id
attached when one is stored. -/
def apiCallBegin (endpoint method : String) (st : State) : State :=
  emit (.fetch endpoint method
    (if truthy st.storage.php_session_id then st.storage.php_session_id else none)) st

/-- End of `handleLogout`: the store is cleared and the page is sent to
`index.html`. -/
def handleLogoutFinish (st : State) : State :=
  { st with storage := Storage.clear, href := some "index.html" }

/-- The function `handleLogout(callApi)`.  With `callApi = false` there is no
`await` and the whole body runs at once; with `callApi = true` it stops at the
`logout.php` request and `handleLogoutFinish` runs afterwards. -/
def handleLogout (callApi : Bool) (st : State) : State :=
  let st := stopContactPolling (stopPolling st)
  if callApi then apiCallBegin "logout.php" "POST" st else handleLogoutFinish st

def failure (message : String) : JsonObj :=
  { success := false, message := some message, messages := [], contacts := [] }

/-- White space and line terminators removed by `String.prototype.trim`. -/
def isJsWhiteSpace (c : Char) : Bool :=
  let n := c.toNat
  (9 ≤ n && n ≤ 13) || n == 32 || n == 160 || n == 5760 || (8192 ≤ n && n ≤ 8202) ||
    n == 8232 || n == 8233 || n == 8239 || n == 8287 || n == 12288 || n == 65279

/-- Test `text.trim().startsWith('<')`. -/
def startsWithMarkup (text : List Char) : Bool :=
  (text.dropWhile isJsWhiteSpace).head? == some '<'

/-- Continuation of `apiCall` once the request has settled: the value it
returns (`none` is `null`) and the state it leaves. -/
def apiCallResume (endpoint : String) (t : Transport) (st : State) : State × Option JsonObj :=
  match t with
  | .networkError failedToFetch message =>
    if failedToFetch then
      (st, some (failure "No se pudo conectar al servidor. Verifica la URL y CORS."))
    else (st, some (failure ("Error de conexión: " ++ message)))
  | .response status text parsed =>
    if status = 403 then
      (st, some (failure "Acceso prohibido. Verifica permisos del servidor."))
    else if status = 401 then (handleLogout false st, none)
    else if status = 404 then (st, some (failure ("Endpoint no encontrado: " ++ endpoint)))
    else if startsWithMarkup text then
      (st, some (failure "Error del servidor. Revisa los logs de PHP."))
    else match parsed with
      | some (.value json) => (st, some json)
      | some .null => (st, some (failure "Respuesta inválida del servidor"))
      | none => (st, some (failure "Respuesta inválida del servidor"))

/-! ## Notification engine -/

def playNotificationSound (st : State) : State :=
  if st.storage.twin_sound_enabled != some "true" then st
  else if !st.env.hasAudioContext then st
  else emit .toneA st

def triggerNewMessageNotification (count : Nat) (st : State) : State :=
  let st := emit (.calledNewMessage count) st
  let st := playNotificationSound st
  if st.env.notificationPermission == some "granted" then emit (.osNotice count) st else st

def shakeElement (element : Bool) (times distance : Nat) (flash : Bool) (st : State) : State :=
  if !element then st else emit (.shake times distance flash) st

def triggerBuzzEffect (st : State) : State :=
  let st := emit .calledBuzzEffect st
  let st := if st.env.hasAudioContext && st.storage.twin_sound_enabled == some "true"
    then emit .toneB st else st
  let st := if st.env.canVibrate then emit .vibrate st else st
  shakeElement st.env.hasChatBox 10 8 true st

/-! ## Message loop -/

/-- The function `displayMessage(msg)`: nothing without a chat box, nothing
when an element already carries `msg.id`, otherwise one element is appended. -/
def displayMessage (msg : Msg) (st : State) : State :=
  if !st.env.hasChatBox then st
  else if st.rendered.any (fun m => m.id == msg.id) then st
  else
    let st := if msg.is_buzz then
        (if !msg.is_mine && !msg.is_read then triggerBuzzEffect st else st)
      else st
    { st with rendered := st.rendered ++ [msg] }

/-- Body of `messages.forEach` in `loadMessages`. -/
def acceptMessage (st : State) (msg : Msg) : State :=
  let st := displayMessage msg st
  if msg.id > st.lastMessageId then { st with lastMessageId := msg.id } else st

def scrollToBottom (st : State) : State :=
  if st.env.hasChatBox then { emit .scrollToBottom st with scrollBottom := 0 } else st

/-- The endpoint `loadMessages` asks for. -/
def messagesUrl (isPolling : Bool) (st : State) : String :=
  "get_messages.php?contact_id=" ++ st.currentContactId.getD "" ++
    (if isPolling && st.lastMessageId > 0 then "&last_id=" ++ toString st.lastMessageId else "")

/-- Synchronous part of `loadMessages`; the flag tells whether a request was
issued. -/
def loadMessagesBegin (isPolling : Bool) (st : State) : State × Bool :=
  if !truthy st.currentContactId then (st, false)
  else (apiCallBegin (messagesUrl isPolling st) "GET" st, true)

/-- Continuation of `loadMessages` after `await apiCall(url)`. -/
def loadMessagesResume (isPolling : Bool) (url : String) (t : Transport) (st : State) : State :=
  let (st, result) := apiCallResume url t st
  let st := match result with
    | some r =>
      if r.success then
        if r.messages.length > 0 then
          let shouldScroll :=
            if st.env.hasChatBox then !isPolling || st.scrollBottom < 150 else true
          let st := r.messages.foldl acceptMessage st
          if shouldScroll && st.env.hasChatBox then scrollToBottom st else st
        else st
      else st
    | none => st
  let st := match st.pollingTimer with
    | some id => clearTimeout id st
    | none => st
  let (st, id) := setTimeout .loadMessages st
  { st with pollingTimer := some id }

/-- One whole cycle of `loadMessages(isPolling)` whose request settles as `t`. -/
def loadMessages (isPolling : Bool) (t : Transport) (st : State) : State :=
  if !truthy st.currentContactId then st
  else
    let url := messagesUrl isPolling st
    loadMessagesResume isPolling url t (apiCallBegin url "GET" st)

/-- Part of `loadChat` before `await loadMessages(false)`; the flag is `false`
when no contact is selected and the page is sent back to `main.html`. -/
def loadChatBegin (st : State) : State × Bool :=
  let st := { st with currentContactId := st.storage.current_contact_id }
  if !truthy st.currentContactId then ({ st with href := some "main.html" }, false)
  else ({ st with lastMessageId := 0 }, true)

/-- The function `loadChat()`: the first, non-incremental cycle settles as `t`,
then `startPolling()` issues the first polling request. -/
def loadChat (t : Transport) (st : State) : State :=
  let (st, ok) := loadChatBegin st
  if !ok then st
  else (loadMessagesBegin true (loadMessages false t st)).1

/-! ## Buzz gate -/

/-- Part of `sendBuzz` before `await apiCall('send_buzz.php', ...)`, started at
time `now`; the flag is `true` when the gate lets the request out. -/
def sendBuzzBegin (now : Int) (st : State) : State × Bool :=
  let lastBuzz := st.storage.twin_last_buzz_time.getD 0
  if now - lastBuzz < BUZZ_COOLDOWN then
    let wait : Int := ⌈(((BUZZ_COOLDOWN - (now - lastBuzz) : Int) : ℚ)) / 1000⌉
    (emit (.alertWait wait) st, false)
  else (apiCallBegin "send_buzz.php" "POST" st, true)

/-- Continuation of `sendBuzz` once the request it issued at `now` settles. -/
def sendBuzzResume (now : Int) (t : Transport) (st : State) : State :=
  let (st, result) := apiCallResume "send_buzz.php" t st
  let ok := match result with
    | some r => r.success
    | none => false
  if ok then
    let st := { st with storage := { st.storage with twin_last_buzz_time := some now } }
    let st := match st.pollingTimer with
      | some id => clearTimeout id st
      | none => st
    let st := (loadMessagesBegin true st).1
    shakeElement st.env.hasChatBox 5 3 false st
  else emit (.alert "No se pudo enviar el Zumbido.") st

/-- One whole call of `sendBuzz()` at time `now` whose request, when the gate
lets it out, settles as `t`. -/
def sendBuzz (now : Int) (t : Transport) (st : State) : State :=
  let (st, sent) := sendBuzzBegin now st
  if sent then sendBuzzResume now t st else st

/-! ## Contact loop -/

/-- Comparator handed to `contacts.sort`; `localeCompare` is the built-in
string comparison. -/
def compareContacts (localeCompare : String → String → Int) (a b : Contact) : Int :=
  let aUnread : Int := if a.unread_count > 0 then 1 else 0
  let bUnread : Int := if b.unread_count > 0 then 1 else 0
  if aUnread ≠ bUnread then bUnread - aUnread
  else
    let aStatus : Int := if a.status = "online" then 1 else 0
    let bStatus : Int := if b.status = "online" then 1 else 0
    if aStatus ≠ bStatus then bStatus - aStatus
    else localeCompare a.name b.name

/-- The built-in `Array.prototype.sort(cmp)`: a stable sort, here by insertion,
that puts `a` before `b` when `cmp a b ≤ 0`. -/
def jsSort {α : Type} (cmp : α → α → Int) (l : List α) : List α :=
  l.insertionSort (fun a b => cmp a b ≤ 0)

/-- The function `renderContacts(contacts)`: the rows are replaced by the
sorted contacts, or by the placeholder when there is none. -/
def renderContacts (localeCompare : String → String → Int) (contacts : List Contact)
    (st : State) : State :=
  if !st.env.hasChatsContainer then st
  else
    let st := { st with contactRows := [], contactsPlaceholder := false }
    if contacts.length = 0 then { st with contactsPlaceholder := true }
    else { st with contactRows := jsSort (compareContacts localeCompare) contacts }

/-- Synchronous part of `loadContacts`; the flag tells whether a request was
issued. -/
def loadContactsBegin (st : State) : State × Bool :=
  if !truthy st.storage.user_name && !st.env.pathIncludesIndex then (st, false)
  else (apiCallBegin "contacts.php" "GET" st, true)

/-- Continuation of `loadContacts` after `await apiCall('contacts.php')`. -/
def loadContactsResume (localeCompare : String → String → Int) (t : Transport)
    (st : State) : State :=
  let (st, result) := apiCallResume "contacts.php" t st
  let st := match result with
    | some r =>
      if r.success then
        let newTotalUnread := r.contacts.foldl (fun (sum : Nat) (c : Contact) => sum + c.unread_count) 0
        let isChatPage := st.env.pathIncludesConversationHtml
        let st := if newTotalUnread > st.totalUnreadCount then
            let diff := newTotalUnread - st.totalUnreadCount
            if !isChatPage && diff > 0 then triggerNewMessageNotification diff st else st
          else st
        let st := { st with totalUnreadCount := newTotalUnread }
        if st.env.hasChatsContainer then renderContacts localeCompare r.contacts st else st
      else st
    | none => st
  let st := match st.contactPollingTimer with
    | some id => clearTimeout id st
    | none => st
  let (st, id) := setTimeout .loadContacts st
  { st with contactPollingTimer := some id }

/-- One whole cycle of `loadContacts()` whose request settles as `t`. -/
def loadContacts (localeCompare : String → String → Int) (t : Transport) (st : State) : State :=
  let (st, sent) := loadContactsBegin st
  if sent then loadContactsResume localeCompare t st else st

/-! ## Timer expiry -/

/-- A pending timeout expires: it leaves the pending list and its callback
starts (up to its request). -/
def fireTimer (id : Nat) (st : State) : State :=
  match st.timers.find? (fun t => t.1 == id) with
  | none => st
  | some (_, cb) =>
    let st := { st with timers := st.timers.filter (fun t => t.1 != id) }
    match cb with
    | .loadMessages => (loadMessagesBegin true st).1
    | .loadContacts => (loadContactsBegin st).1

/-! ## Specification-side definitions -/

/-- Ids carried by the rendered message elements, in document order. -/
def renderedIds (st : State) : List Nat :=
  st.rendered.map (fun m => m.id)

/-- The batch a settled request hands to `messages.forEach`: the messages of
a result with `success`, and nothing for a failure value or `null`. -/
def fetchedBatch (t : Transport) : List Msg :=
  match t with
  | .response status text (some (.value json)) =>
    if status = 403 ∨ status = 401 ∨ status = 404 ∨ startsWithMarkup text = true then []
    else if json.success then json.messages else []
  | _ => []

/-- For every id, its first message in the list; order kept. -/
def firstOccurrences : List Msg → List Msg
  | [] => []
  | m :: ms => m :: (firstOccurrences ms).filter (fun x => x.id != m.id)

/-- The messages of `batch` whose id is not carried by `rendered`, first
occurrence of each id, in batch order. -/
def newlyAccepted (rendered batch : List Msg) : List Msg :=
  firstOccurrences (batch.filter (fun m => !(rendered.any (fun r => r.id == m.id))))

/-- A run of whole `loadMessages` cycles, each with its `isPolling` flag and
the way its request settles. -/
def runMessageCycles (cycles : List (Bool × Transport)) (st : State) : State :=
  cycles.foldl (fun s c => loadMessages c.1 c.2 s) st

/-- What one accepted message adds to a rendered list. -/
def appendIfNew (hasChatBox : Bool) (rendered : List Msg) (msg : Msg) : List Msg :=
  if hasChatBox = true ∧ msg.id ∉ rendered.map (fun m => m.id) then rendered ++ [msg] else rendered

/-- Fields the message loop works on. -/
structure MessageView where
  env : Env
  currentContactId : Option String
  rendered : List Msg
  lastMessageId : Nat

def State.messageView (st : State) : MessageView :=
  { env := st.env, currentContactId := st.currentContactId, rendered := st.rendered,
    lastMessageId := st.lastMessageId }

/-- Effect of one accepted batch on the fields of the message loop. -/
def acceptBatchView (ms : List Msg) (v : MessageView) : MessageView :=
  { v with rendered := ms.foldl (appendIfNew v.env.hasChatBox) v.rendered,
           lastMessageId := ms.foldl (fun c m => max c m.id) v.lastMessageId }

/-- All batches handed to `messages.forEach` over a run of cycles, in order. -/
def fetchedAll (cycles : List (Bool × Transport)) : List Msg :=
  cycles.flatMap (fun c => fetchedBatch c.2)

/-- A conversation page with a chat box, as the browser loads it. -/
def sampleEnv : Env :=
  { pathIncludesIndex := false, pathIncludesMainHtml := false,
    pathIncludesConversationHtml := true, hasAudioContext := true,
    notificationPermission := some "granted", canVibrate := true,
    hasChatBox := true, hasChatsContainer := false }

/-- A session store after login with contact 7 selected. -/
def sampleStorage : Storage :=
  { twin_sound_enabled := some "true", twin_last_buzz_time := none,
    php_session_id := some "abc", user_id := some "1", user_name := some "Ana",
    user_email := some "ana@example.com", current_contact_id := some "7",
    current_contact_name := some "Luis" }

/-- The conversation page just after the synchronous part of `loadChat`. -/
def sampleChat : State :=
  (loadChatBegin (initialState sampleEnv sampleStorage)).1

def sampleMsg (id : Nat) : Msg :=
  { id := id, sender_name := "Luis", message := some "hola", created_at := "2024-01-01 10:00:00",
    is_mine := false, is_buzz := false, is_read := false }

/-- A success value carrying the messages `ms`. -/
def successValue (ms : List Msg) : JsonObj :=
  { success := true, message := none, messages := ms, contacts := [] }

/-- A `200` response whose body parses to a success value carrying `ms`. -/
def okMessages (ms : List Msg) : Transport :=
  .response 200 [] (some (.value (successValue ms)))

/-- A run of whole `sendBuzz` calls, each with its start time and the way its
request settles if the gate lets it out. -/
def runBuzzCalls (calls : List (Int × Transport)) (st : State) : State :=
  calls.foldl (fun s c => sendBuzz c.1 c.2 s) st

/-- A session in which a buzz fired at time 5000 went through. -/
def sampleBuzzed : State :=
  sendBuzzResume 5000 (okMessages []) sampleChat

/-- What JavaScript asks of a comparison function, here for the built-in
`localeCompare`: swapping the arguments swaps the sign, and "not after" is
transitive. -/
structure ConsistentCompare (lc : String → String → Int) : Prop where
  swap : ∀ a b, lc a b < 0 ↔ 0 < lc b a
  trans : ∀ a b c, lc a b ≤ 0 → lc b c ≤ 0 → lc a c ≤ 0

/-- The order of the contact list in words: a contact with unread messages
comes before one without; among those, an online contact comes before one that
is not online; among those, names ascend. -/
def contactBefore (lc : String → String → Int) (a b : Contact) : Prop :=
  (a.unread_count > 0 ∧ ¬ b.unread_count > 0) ∨
  ((a.unread_count > 0 ↔ b.unread_count > 0) ∧
    ((a.status = "online" ∧ ¬ b.status = "online") ∨
     ((a.status = "online" ↔ b.status = "online") ∧ lc a.name b.name ≤ 0)))

/-- A stand-in for `localeCompare` on plain strings: code point order. -/
def sampleLocaleCompare (a b : String) : Int :=
  if a.data < b.data then -1 else if a.data = b.data then 0 else 1

def contactA : Contact := { id := 1, name := "Zed", status := "offline", unread_count := 0 }

def contactB : Contact := { id := 2, name := "Ann", status := "offline", unread_count := 0 }

def contactC : Contact := { id := 3, name := "Eva", status := "online", unread_count := 2 }

/-- A contact-list page. -/
def sampleMain : State :=
  initialState { sampleEnv with pathIncludesMainHtml := true,
                                pathIncludesConversationHtml := false,
                                hasChatBox := false, hasChatsContainer := true } sampleStorage

/-- The counts handed to `triggerNewMessageNotification`, in call order. -/
def notificationEvents (st : State) : List Nat :=
  st.effects.filterMap (fun e => match e with
    | .calledNewMessage n => some n
    | _ => none)

/-- Sum of all contacts' unread counts. -/
def totalUnread (contacts : List Contact) : Nat :=
  (contacts.map (fun c => c.unread_count)).sum

/-- A `200` response whose body parses to a success value carrying `cs`. -/
def okContacts (cs : List Contact) : Transport :=
  .response 200 [] (some (.value { success := true, message := none, messages := [], contacts := cs }))

def contactUnread (n : Nat) : Contact :=
  { id := 1, name := "Luis", status := "online", unread_count := n }

/-- Fields the contact loop works on, besides the rendered rows. -/
structure ContactView where
  env : Env
  storage : Storage
  totalUnreadCount : Nat
  events : List Nat

def State.contactView (st : State) : ContactView :=
  { env := st.env, storage := st.storage, totalUnreadCount := st.totalUnreadCount,
    events := notificationEvents st }

/-- Number of requests issued so far. -/
def fetchCount (st : State) : Nat :=
  (st.effects.filter (fun e => match e with
    | .fetch _ _ _ => true
    | _ => false)).length

/-! ## HTML escaping -/

/-- One call `s.replace(/c/g, r)`: every `c` in `s` becomes `r`. -/
def replaceAll (c : Char) (r : List Char) (s : List Char) : List Char :=
  s.flatMap (fun x => if x = c then r else [x])

/-- The double quote character. -/
def quoteChar : Char := Char.ofNat 34

/-- The single quote character. -/
def aposChar : Char := Char.ofNat 39

def ampEntity : List Char := ['&', 'a', 'm', 'p', ';']

def ltEntity : List Char := ['&', 'l', 't', ';']

def gtEntity : List Char := ['&', 'g', 't', ';']

def quotEntity : List Char := ['&', 'q', 'u', 'o', 't', ';']

def aposEntity : List Char := ['&', '#', '0', '3', '9', ';']

/-- The chain of five `replace` calls of `escapeHtml`, innermost first. -/
def escapeChars (s : List Char) : List Char :=
  replaceAll aposChar aposEntity
    (replaceAll quoteChar quotEntity
      (replaceAll '>' gtEntity
        (replaceAll '<' ltEntity
          (replaceAll '&' ampEntity s))))

/-- The function `escapeHtml(text)`; `none` is an absent text, which like the
empty string is falsy and gives `''`. -/
def escapeHtml (text : Option String) : String :=
  match text with
  | none => ""
  | some s => if s = "" then "" else String.mk (escapeChars s.data)

/-- What the five passes together make of one character. -/
def escapeChar (c : Char) : List Char :=
  if c = '&' then ampEntity
  else if c = '<' then ltEntity
  else if c = '>' then gtEntity
  else if c = quoteChar then quotEntity
  else if c = aposChar then aposEntity
  else [c]

/-- The five entities with the characters they stand for. -/
def entityTable : List (List Char × Char) :=
  [(ampEntity, '&'), (ltEntity, '<'), (gtEntity, '>'), (quotEntity, quoteChar),
   (aposEntity, aposChar)]

/-- Whether `s` begins with `pattern`. -/
def beginsWith : List Char → List Char → Bool
  | [], _ => true
  | _ :: _, [] => false
  | p :: ps, c :: cs => p == c && beginsWith ps cs

/-- The entity `s` begins with, if any. -/
def entityAt (s : List Char) : Option (List Char × Char) :=
  entityTable.find? (fun e => beginsWith e.1 s)

/-- Left-to-right replacement of the five entities by their characters;
`skip` counts the characters of an entity still to be passed over. -/
def unescapeAux : Nat → List Char → List Char
  | _, [] => []
  | skip + 1, _ :: cs => unescapeAux skip cs
  | 0, c :: cs =>
    match entityAt (c :: cs) with
    | some e => e.2 :: unescapeAux (e.1.length - 1) cs
    | none => c :: unescapeAux 0 cs

/-- Replacing the five entities by the characters they stand for. -/
def unescapeHtml (s : List Char) : List Char :=
  unescapeAux 0 s

/-- What `triggerBuzzEffect` emits in state `st`, in order. -/
def buzzEffects (st : State) : List Effect :=
  [Effect.calledBuzzEffect] ++
    (if st.env.hasAudioContext && st.storage.twin_sound_enabled == some "true"
      then [Effect.toneB] else []) ++
    (if st.env.canVibrate then [Effect.vibrate] else []) ++
    (if st.env.hasChatBox then [Effect.shake 10 8 true] else [])

/-- How many times alert tone A has been played so far. -/
def toneACount (st : State) : Nat :=
  st.effects.count Effect.toneA

/-- The classification of an incoming buzz that is still unread. -/
def isUnreadIncomingBuzz (msg : Msg) : Bool :=
  msg.is_buzz && !msg.is_mine && !msg.is_read

/-- A conversation page whose sound preference has been switched off. -/
def sampleMuted : State :=
  { sampleChat with storage := { sampleChat.storage with twin_sound_enabled := some "false" } }

/-! ## Frame lemmas -/

theorem emit_eq (e : Effect) (st : State) : emit e st = { st with effects := st.effects ++ [e] } :=
  rfl

theorem triggerBuzzEffect_frame (st : State) :
    ∃ es, triggerBuzzEffect st = { st with effects := es } := by
  unfold triggerBuzzEffect shakeElement emit
  simp only []
  split_ifs <;> exact ⟨_, rfl⟩

theorem displayMessage_cases (msg : Msg) (st : State) :
    (displayMessage msg st = st ∧
      (st.env.hasChatBox = false ∨ msg.id ∈ renderedIds st)) ∨
    (∃ es, displayMessage msg st = { st with effects := es, rendered := st.rendered ++ [msg] } ∧
      st.env.hasChatBox = true ∧ msg.id ∉ renderedIds st) := by
  unfold displayMessage
  by_cases hb : st.env.hasChatBox = true
  · by_cases hm : msg.id ∈ renderedIds st
    · left
      have : st.rendered.any (fun m => m.id == msg.id) = true := by
        simp only [renderedIds, List.mem_map] at hm
        obtain ⟨m, hm1, hm2⟩ := hm
        exact List.any_eq_true.mpr ⟨m, hm1, by simp [hm2]⟩
      simp [hb, this, hm]
    · right
      have : st.rendered.any (fun m => m.id == msg.id) = false := by
        rw [Bool.eq_false_iff]
        intro h
        obtain ⟨m, hm1, hm2⟩ := List.any_eq_true.mp h
        exact hm (by simp only [renderedIds, List.mem_map]; exact ⟨m, hm1, by simpa using hm2⟩)
      simp only [hb, this, Bool.not_true, Bool.false_eq_true, if_false]
      obtain ⟨es, hes⟩ := triggerBuzzEffect_frame st
      split_ifs
      · exact ⟨es, by rw [hes], trivial, hm⟩
      · exact ⟨st.effects, rfl, trivial, hm⟩
      · exact ⟨st.effects, rfl, trivial, hm⟩
  · left
    simp only [Bool.not_eq_true] at hb
    simp [hb]

theorem acceptMessage_frame (st : State) (msg : Msg) :
    ∃ es, acceptMessage st msg =
      { st with effects := es, rendered := appendIfNew st.env.hasChatBox st.rendered msg,
                lastMessageId := max st.lastMessageId msg.id } := by
  unfold acceptMessage
  rcases displayMessage_cases msg st with ⟨h, hc⟩ | ⟨es, h, hb, hm⟩
  · have hr : appendIfNew st.env.hasChatBox st.rendered msg = st.rendered := by
      unfold appendIfNew
      rcases hc with hc | hc
      · simp [hc]
      · simp only [renderedIds] at hc
        simp [hc]
    rw [h, hr]
    refine ⟨st.effects, ?_⟩
    by_cases hlt : msg.id > st.lastMessageId
    · simp only [hlt, if_true]
      rw [max_eq_right (le_of_lt hlt)]
    · simp only [hlt, if_false]
      rw [max_eq_left (not_lt.mp hlt)]
  · have hr : appendIfNew st.env.hasChatBox st.rendered msg = st.rendered ++ [msg] := by
      unfold appendIfNew
      simp only [renderedIds] at hm
      simp [hb, hm]
    rw [h, hr]
    refine ⟨es, ?_⟩
    by_cases hlt : msg.id > st.lastMessageId
    · simp only [hlt, if_true]
      rw [max_eq_right (le_of_lt hlt)]
    · simp only [hlt, if_false]
      rw [max_eq_left (not_lt.mp hlt)]

theorem foldl_acceptMessage_frame (ms : List Msg) (st : State) :
    ∃ es, ms.foldl acceptMessage st =
      { st with effects := es,
                rendered := ms.foldl (appendIfNew st.env.hasChatBox) st.rendered,
                lastMessageId := ms.foldl (fun c m => max c m.id) st.lastMessageId } := by
  induction ms generalizing st with
  | nil => exact ⟨st.effects, rfl⟩
  | cons m ms ih =>
    obtain ⟨es, h⟩ := acceptMessage_frame st m
    obtain ⟨es2, h2⟩ := ih (acceptMessage st m)
    refine ⟨es2, ?_⟩
    rw [List.foldl_cons, h2, h]
    rfl

theorem firstOccurrences_filter (k : Nat) (l : List Msg) :
    firstOccurrences (l.filter (fun x => x.id != k)) =
      (firstOccurrences l).filter (fun x => x.id != k) := by
  induction l with
  | nil => rfl
  | cons x xs ih =>
    by_cases hx : x.id = k
    · have h1 : (x.id != k) = false := by simp [hx]
      simp only [List.filter_cons, h1, firstOccurrences, Bool.false_eq_true, if_false]
      rw [ih, List.filter_filter]
      apply List.filter_congr
      intro y _
      rw [hx]
      simp
    · have h1 : (x.id != k) = true := by simp [hx]
      simp only [List.filter_cons, h1, firstOccurrences, if_true]
      rw [ih, List.filter_filter, List.filter_filter]
      congr 1
      apply List.filter_congr
      intro y _
      exact Bool.and_comm _ _

theorem foldl_appendIfNew_false (ms rendered : List Msg) :
    ms.foldl (appendIfNew false) rendered = rendered := by
  induction ms generalizing rendered with
  | nil => rfl
  | cons m ms ih => simp [List.foldl_cons, appendIfNew, ih]

theorem foldl_appendIfNew_true (ms rendered : List Msg) :
    ms.foldl (appendIfNew true) rendered = rendered ++ newlyAccepted rendered ms := by
  induction ms generalizing rendered with
  | nil => simp [newlyAccepted, firstOccurrences]
  | cons m ms ih =>
    rw [List.foldl_cons, ih]
    by_cases hm : m.id ∈ rendered.map (fun r => r.id)
    · have hany : rendered.any (fun r => r.id == m.id) = true := by
        obtain ⟨r, hr1, hr2⟩ := List.mem_map.mp hm
        exact List.any_eq_true.mpr ⟨r, hr1, by simp [hr2]⟩
      have h1 : appendIfNew true rendered m = rendered := by simp [appendIfNew, hm]
      rw [h1]
      unfold newlyAccepted
      rw [List.filter_cons_of_neg (by simp [hany])]
    · have hany : rendered.any (fun r => r.id == m.id) = false := by
        rw [Bool.eq_false_iff]
        intro h
        obtain ⟨r, hr1, hr2⟩ := List.any_eq_true.mp h
        exact hm (List.mem_map.mpr ⟨r, hr1, by simpa using hr2⟩)
      have h1 : appendIfNew true rendered m = rendered ++ [m] := by simp [appendIfNew, hm]
      rw [h1, List.append_assoc]
      congr 1
      unfold newlyAccepted
      rw [List.filter_cons_of_pos (by simp [hany])]
      simp only [firstOccurrences, List.singleton_append]
      congr 1
      rw [← firstOccurrences_filter, List.filter_filter]
      congr 1
      apply List.filter_congr
      intro y _
      simp only [List.any_append, List.any_cons, List.any_nil, Bool.or_false, Bool.not_or]
      rw [Bool.and_comm]
      congr 1
      by_cases hy : y.id = m.id
      · rw [hy]
        simp
      · have e1 : (m.id == y.id) = false := by
          rw [beq_eq_false_iff_ne]
          exact fun h => hy h.symm
        have e2 : (y.id != m.id) = true := by
          rw [bne_iff_ne]
          exact hy
        rw [e1, e2]
        rfl

theorem clearTimeout_messageView (id : Nat) (st : State) :
    (clearTimeout id st).messageView = st.messageView := rfl

theorem handleLogout_false_messageView (st : State) :
    (handleLogout false st).messageView = st.messageView := by
  unfold handleLogout stopContactPolling stopPolling handleLogoutFinish
  cases st.pollingTimer <;> cases hc : st.contactPollingTimer <;>
    simp [State.messageView, clearTimeout, hc]

theorem fetchedBatch_blocked (status : Nat) (text : List Char) (parsed : Option Json)
    (h : status = 403 ∨ status = 401 ∨ status = 404 ∨ startsWithMarkup text = true) :
    fetchedBatch (.response status text parsed) = [] := by
  rcases parsed with _ | _ | json
  · rfl
  · rfl
  · simp only [fetchedBatch, h, if_true]

theorem failure_batch (message : String) :
    (if (failure message).success = true then (failure message).messages else []) = [] := rfl

theorem apiCallResume_spec (url : String) (t : Transport) (st : State) :
    (∃ o, apiCallResume url t st = (st, some o) ∧
      (if o.success = true then o.messages else []) = fetchedBatch t) ∨
    (apiCallResume url t st = (handleLogout false st, none) ∧ fetchedBatch t = [] ∧
      ∃ text parsed, t = .response 401 text parsed) := by
  cases t with
  | networkError f m =>
    left
    simp only [apiCallResume]
    by_cases hf : f = true
    · exact ⟨_, by rw [if_pos hf], failure_batch _⟩
    · exact ⟨_, by rw [if_neg hf], failure_batch _⟩
  | response status text parsed =>
    simp only [apiCallResume]
    by_cases h403 : status = 403
    · left
      refine ⟨_, by rw [if_pos h403], ?_⟩
      rw [fetchedBatch_blocked _ _ _ (Or.inl h403)]
      rfl
    by_cases h401 : status = 401
    · right
      refine ⟨by rw [if_neg h403, if_pos h401], ?_, text, parsed, by rw [h401]⟩
      exact fetchedBatch_blocked _ _ _ (Or.inr (Or.inl h401))
    by_cases h404 : status = 404
    · left
      refine ⟨_, by rw [if_neg h403, if_neg h401, if_pos h404], ?_⟩
      rw [fetchedBatch_blocked _ _ _ (Or.inr (Or.inr (Or.inl h404)))]
      rfl
    by_cases hm : startsWithMarkup text = true
    · left
      refine ⟨_, by rw [if_neg h403, if_neg h401, if_neg h404, if_pos hm], ?_⟩
      rw [fetchedBatch_blocked _ _ _ (Or.inr (Or.inr (Or.inr hm)))]
      rfl
    · left
      rw [if_neg h403, if_neg h401, if_neg h404, if_neg hm]
      rcases parsed with _ | _ | json
      · exact ⟨_, rfl, rfl⟩
      · exact ⟨_, rfl, rfl⟩
      · refine ⟨_, rfl, ?_⟩
        simp [fetchedBatch, h403, h401, h404, hm]

theorem foldl_acceptMessage_messageView (ms : List Msg) (st : State) :
    (ms.foldl acceptMessage st).messageView = acceptBatchView ms st.messageView := by
  obtain ⟨es, h⟩ := foldl_acceptMessage_frame ms st
  rw [h]
  rfl

theorem scrollToBottom_messageView (st : State) :
    (scrollToBottom st).messageView = st.messageView := by
  unfold scrollToBottom
  split <;> rfl

theorem ite_scrollToBottom_messageView (c : Bool) (st : State) :
    (if c = true then scrollToBottom st else st).messageView = st.messageView := by
  cases c
  · rfl
  · exact scrollToBottom_messageView st

theorem rearmPolling_messageView (st : State) :
    ({ (setTimeout .loadMessages (match st.pollingTimer with
        | some id => clearTimeout id st
        | none => st)).1 with
        pollingTimer := some (setTimeout .loadMessages (match st.pollingTimer with
        | some id => clearTimeout id st
        | none => st)).2 } : State).messageView = st.messageView := by
  cases st.pollingTimer <;> rfl

theorem loadMessagesResume_messageView (isPolling : Bool) (url : String) (t : Transport)
    (st : State) :
    (loadMessagesResume isPolling url t st).messageView =
      acceptBatchView (fetchedBatch t) st.messageView := by
  unfold loadMessagesResume
  rcases apiCallResume_spec url t st with ⟨o, h, hb⟩ | ⟨h, hb, _⟩
  · rw [h]
    simp only []
    rw [rearmPolling_messageView, ← hb]
    by_cases hs : o.success = true
    · simp only [hs, if_true]
      by_cases hl : o.messages.length > 0
      · simp only [hl, if_true]
        rw [ite_scrollToBottom_messageView, foldl_acceptMessage_messageView]
      · simp only [hl, if_false]
        have : o.messages = [] := List.length_eq_zero.mp (Nat.eq_zero_of_not_pos hl)
        rw [this]
        rfl
    · simp only [hs, if_false]
      rfl
  · rw [h]
    simp only []
    rw [rearmPolling_messageView, hb, handleLogout_false_messageView]
    rfl

theorem apiCallBegin_messageView (endpoint method : String) (st : State) :
    (apiCallBegin endpoint method st).messageView = st.messageView := rfl

theorem loadMessages_messageView (isPolling : Bool) (t : Transport) (st : State) :
    (loadMessages isPolling t st).messageView =
      if truthy st.currentContactId = true then acceptBatchView (fetchedBatch t) st.messageView
      else st.messageView := by
  unfold loadMessages
  by_cases hc : truthy st.currentContactId = true
  · simp only [hc, Bool.not_true, Bool.false_eq_true, if_false, if_true]
    rw [loadMessagesResume_messageView, apiCallBegin_messageView]
  · simp only [Bool.not_eq_true] at hc
    simp [hc]

theorem acceptBatchView_append (a b : List Msg) (v : MessageView) :
    acceptBatchView b (acceptBatchView a v) = acceptBatchView (a ++ b) v := by
  simp only [acceptBatchView, List.foldl_append]

theorem acceptBatchView_nil (v : MessageView) : acceptBatchView [] v = v := rfl

theorem runMessageCycles_messageView (cycles : List (Bool × Transport)) (st : State)
    (hcontact : truthy st.currentContactId = true) :
    (runMessageCycles cycles st).messageView =
      acceptBatchView (fetchedAll cycles) st.messageView := by
  induction cycles generalizing st with
  | nil => rfl
  | cons c cs ih =>
    have h1 := loadMessages_messageView c.1 c.2 st
    rw [if_pos hcontact] at h1
    have hc : truthy (loadMessages c.1 c.2 st).currentContactId = true := by
      have := congrArg MessageView.currentContactId h1
      simp only [State.messageView, acceptBatchView] at this
      rw [this]
      exact hcontact
    have h2 := ih (loadMessages c.1 c.2 st) hc
    simp only [runMessageCycles, List.foldl_cons] at h2 ⊢
    rw [h2, h1, acceptBatchView_append]
    simp [fetchedAll, List.flatMap_cons]

theorem runMessageCycles_no_contact (cycles : List (Bool × Transport)) (st : State)
    (hcontact : truthy st.currentContactId = false) :
    runMessageCycles cycles st = st := by
  induction cycles with
  | nil => rfl
  | cons c cs ih =>
    simp only [runMessageCycles, List.foldl_cons] at ih ⊢
    have : loadMessages c.1 c.2 st = st := by simp [loadMessages, hcontact]
    rw [this, ih]

theorem le_foldl_max (ms : List Msg) (c : Nat) :
    c ≤ ms.foldl (fun c m => max c m.id) c := by
  induction ms generalizing c with
  | nil => exact le_refl _
  | cons m ms ih => exact le_trans (le_max_left _ _) (ih _)

theorem foldl_max_eq (ms : List Msg) (c : Nat) :
    ms.foldl (fun c m => max c m.id) c = max c ((ms.map (fun m => m.id)).foldr max 0) := by
  induction ms generalizing c with
  | nil => simp
  | cons m ms ih =>
    rw [List.foldl_cons, ih, List.map_cons, List.foldr_cons, max_assoc]

theorem foldr_max_le_iff (l : List Nat) (n : Nat) :
    l.foldr max 0 ≤ n ↔ ∀ x ∈ l, x ≤ n := by
  induction l with
  | nil => simp
  | cons a l ih => simp [List.foldr_cons, ih]

theorem foldr_max_congr (a b : List Nat) (h : ∀ x, x ∈ a ↔ x ∈ b) :
    a.foldr max 0 = b.foldr max 0 := by
  apply le_antisymm
  · rw [foldr_max_le_iff]
    intro x hx
    exact (foldr_max_le_iff b _).mp (le_refl _) x ((h x).mp hx)
  · rw [foldr_max_le_iff]
    intro x hx
    exact (foldr_max_le_iff a _).mp (le_refl _) x ((h x).mpr hx)

theorem mem_firstOccurrences_ids (l : List Msg) (k : Nat) :
    k ∈ (firstOccurrences l).map (fun m => m.id) ↔ k ∈ l.map (fun m => m.id) := by
  induction l with
  | nil => simp [firstOccurrences]
  | cons x xs ih =>
    simp only [firstOccurrences, List.map_cons, List.mem_cons]
    constructor
    · rintro (h | h)
      · exact Or.inl h
      · right
        obtain ⟨m, hm, rfl⟩ := List.mem_map.mp h
        exact ih.mp (List.mem_map.mpr ⟨m, (List.mem_filter.mp hm).1, rfl⟩)
    · rintro (h | h)
      · exact Or.inl h
      · by_cases hk : k = x.id
        · exact Or.inl hk
        · right
          obtain ⟨m, hm, rfl⟩ := List.mem_map.mp (ih.mpr h)
          exact List.mem_map.mpr ⟨m, List.mem_filter.mpr ⟨hm, by simpa using hk⟩, rfl⟩

theorem nodup_firstOccurrences_ids (l : List Msg) :
    ((firstOccurrences l).map (fun m => m.id)).Nodup := by
  induction l with
  | nil => simp [firstOccurrences]
  | cons x xs ih =>
    simp only [firstOccurrences, List.map_cons, List.nodup_cons]
    constructor
    · intro h
      obtain ⟨m, hm, hid⟩ := List.mem_map.mp h
      have := (List.mem_filter.mp hm).2
      simp [hid] at this
    · exact (ih.sublist ((List.filter_sublist _).map _))

theorem firstOccurrences_of_nodup (l : List Msg) (h : (l.map (fun m => m.id)).Nodup) :
    firstOccurrences l = l := by
  induction l with
  | nil => rfl
  | cons x xs ih =>
    rw [List.map_cons, List.nodup_cons] at h
    simp only [firstOccurrences, ih h.2]
    congr 1
    apply List.filter_eq_self.mpr
    intro m hm
    rw [bne_iff_ne]
    intro hid
    exact h.1 (List.mem_map.mpr ⟨m, hm, hid⟩)

theorem mem_newlyAccepted_ids (rendered batch : List Msg) (k : Nat) :
    k ∈ (newlyAccepted rendered batch).map (fun m => m.id) ↔
      k ∈ batch.map (fun m => m.id) ∧ k ∉ rendered.map (fun m => m.id) := by
  unfold newlyAccepted
  rw [mem_firstOccurrences_ids]
  simp only [List.mem_map, List.mem_filter, Bool.not_eq_true', List.any_eq_false, beq_iff_eq]
  constructor
  · rintro ⟨m, ⟨hm, hn⟩, rfl⟩
    exact ⟨⟨m, hm, rfl⟩, fun ⟨r, hr, hid⟩ => hn r hr hid⟩
  · rintro ⟨⟨m, hm, rfl⟩, hn⟩
    exact ⟨m, ⟨hm, fun r hr hid => hn ⟨r, hr, hid⟩⟩, rfl⟩

/-! ## Message loop: claims -/

theorem rendered_after_cycles (cycles : List (Bool × Transport)) (st : State)
    (hbox : st.env.hasChatBox = true) (hcontact : truthy st.currentContactId = true) :
    (runMessageCycles cycles st).rendered =
      st.rendered ++ newlyAccepted st.rendered (fetchedAll cycles) := by
  have h := congrArg MessageView.rendered (runMessageCycles_messageView cycles st hcontact)
  simp only [State.messageView, acceptBatchView, hbox] at h
  rw [h, foldl_appendIfNew_true]

theorem cursor_after_cycles (cycles : List (Bool × Transport)) (st : State)
    (hcontact : truthy st.currentContactId = true) :
    (runMessageCycles cycles st).lastMessageId =
      max st.lastMessageId (((fetchedAll cycles).map (fun m => m.id)).foldr max 0) := by
  have h := congrArg MessageView.lastMessageId (runMessageCycles_messageView cycles st hcontact)
  simp only [State.messageView, acceptBatchView] at h
  rw [h, foldl_max_eq]

/-- C1. Over any run of `loadMessages` cycles in an entered conversation whose
page has a chat box, started from a rendered list without repeated ids, every
id is carried by exactly one rendered element if it was already rendered or
came in some fetched batch, and by none otherwise; and `displayMessage` on an
id that is already rendered returns the state unchanged. -/
theorem rendered_ids_exactly_once (st : State) (cycles : List (Bool × Transport))
    (hbox : st.env.hasChatBox = true) (hcontact : truthy st.currentContactId = true)
    (hnodup : (renderedIds st).Nodup) :
    (∀ id : Nat, (renderedIds (runMessageCycles cycles st)).count id =
        if id ∈ renderedIds st ∨ id ∈ (fetchedAll cycles).map (fun m => m.id) then 1 else 0) ∧
    (∀ (s : State) (msg : Msg), msg.id ∈ renderedIds s → displayMessage msg s = s) := by
  constructor
  · intro id
    have hr := rendered_after_cycles cycles st hbox hcontact
    have hids : renderedIds (runMessageCycles cycles st) =
        renderedIds st ++ (newlyAccepted st.rendered (fetchedAll cycles)).map (fun m => m.id) := by
      simp only [renderedIds, hr, List.map_append]
    have hnd : (renderedIds (runMessageCycles cycles st)).Nodup := by
      rw [hids]
      refine List.Nodup.append hnodup (nodup_firstOccurrences_ids _) ?_
      intro k hk1 hk2
      exact ((mem_newlyAccepted_ids _ _ k).mp hk2).2 hk1
    rw [List.count_eq_of_nodup hnd, hids]
    have hmem : id ∈ renderedIds st ++
          (newlyAccepted st.rendered (fetchedAll cycles)).map (fun m => m.id) ↔
        id ∈ renderedIds st ∨ id ∈ (fetchedAll cycles).map (fun m => m.id) := by
      rw [List.mem_append, mem_newlyAccepted_ids]
      constructor
      · rintro (h | ⟨h, _⟩)
        · exact Or.inl h
        · exact Or.inr h
      · rintro (h | h)
        · exact Or.inl h
        · by_cases hin : id ∈ renderedIds st
          · exact Or.inl hin
          · exact Or.inr ⟨h, hin⟩
    simp only [hmem]
  · intro s msg hmem
    rcases displayMessage_cases msg s with ⟨h, _⟩ | ⟨_, _, _, hn⟩
    · exact h
    · exact absurd hmem hn

theorem rendered_ids_exactly_once_witness :
    (∀ id : Nat, (renderedIds (runMessageCycles
        [(false, okMessages [sampleMsg 3, sampleMsg 1, sampleMsg 5]),
         (true, okMessages [sampleMsg 5, sampleMsg 6, sampleMsg 6])] sampleChat)).count id =
        if id ∈ renderedIds sampleChat ∨ id ∈ (fetchedAll
          [(false, okMessages [sampleMsg 3, sampleMsg 1, sampleMsg 5]),
           (true, okMessages [sampleMsg 5, sampleMsg 6, sampleMsg 6])]).map (fun m => m.id)
        then 1 else 0) ∧
    (∀ (s : State) (msg : Msg), msg.id ∈ renderedIds s → displayMessage msg s = s) :=
  rendered_ids_exactly_once sampleChat _ (by decide) (by decide) (by decide)

/-- C2. A `loadMessages` cycle never lowers the cursor `lastMessageId`,
however its request settles and from whatever state it starts: this holds for
the whole cycle, for its continuation alone, and so between any two
consecutive points of a run of cycles. -/
theorem cursor_nondecreasing (st : State) (isPolling : Bool) (t : Transport) :
    st.lastMessageId ≤ (loadMessages isPolling t st).lastMessageId ∧
    (∀ url : String, st.lastMessageId ≤ (loadMessagesResume isPolling url t st).lastMessageId) ∧
    (∀ (cycles : List (Bool × Transport)) (c : Bool × Transport),
      (runMessageCycles cycles st).lastMessageId ≤
        (runMessageCycles (cycles ++ [c]) st).lastMessageId) := by
  have hres : ∀ (p : Bool) (url : String) (t : Transport) (s : State),
      s.lastMessageId ≤ (loadMessagesResume p url t s).lastMessageId := by
    intro p url t s
    have h := congrArg MessageView.lastMessageId (loadMessagesResume_messageView p url t s)
    simp only [State.messageView, acceptBatchView] at h
    rw [h]
    exact le_foldl_max _ _
  have hcyc : ∀ (p : Bool) (t : Transport) (s : State),
      s.lastMessageId ≤ (loadMessages p t s).lastMessageId := by
    intro p t s
    unfold loadMessages
    split
    · exact le_refl _
    · exact hres p (messagesUrl p s) t (apiCallBegin (messagesUrl p s) "GET" s)
  refine ⟨hcyc _ _ _, fun url => hres _ _ _ _, ?_⟩
  intro cycles c
  simp only [runMessageCycles, List.foldl_append, List.foldl_cons, List.foldl_nil]
  exact hcyc _ _ _

/-- C3. After `loadChat` has selected a contact and reset the cursor on a page
with a chat box and nothing rendered yet, after any run of `loadMessages`
cycles the cursor equals the largest id among the rendered (accepted) messages,
`0` when there is none; a first batch with ids 3, 1, 5 leaves the cursor
at 5. -/
theorem cursor_eq_max_accepted (st : State) (cycles : List (Bool × Transport))
    (hbox : st.env.hasChatBox = true) (hfresh : st.rendered = [])
    (hok : (loadChatBegin st).2 = true) :
    (loadChatBegin st).1.lastMessageId = 0 ∧
    (runMessageCycles cycles (loadChatBegin st).1).lastMessageId =
      (renderedIds (runMessageCycles cycles (loadChatBegin st).1)).foldr max 0 ∧
    (∀ (isPolling : Bool) (t : Transport), (fetchedBatch t).map (fun m => m.id) = [3, 1, 5] →
      (loadMessages isPolling t (loadChatBegin st).1).lastMessageId = 5) := by
  have hshape : (loadChatBegin st).1 =
      { st with currentContactId := st.storage.current_contact_id, lastMessageId := 0 } ∧
      truthy st.storage.current_contact_id = true := by
    unfold loadChatBegin at hok ⊢
    by_cases hc : truthy st.storage.current_contact_id = true
    · simp [hc]
    · simp only [Bool.not_eq_true] at hc
      simp [hc] at hok
  obtain ⟨hs, hc⟩ := hshape
  have hbox1 : (loadChatBegin st).1.env.hasChatBox = true := by rw [hs]; exact hbox
  have hcon1 : truthy (loadChatBegin st).1.currentContactId = true := by rw [hs]; exact hc
  have hren1 : (loadChatBegin st).1.rendered = [] := by rw [hs]; exact hfresh
  have hcur1 : (loadChatBegin st).1.lastMessageId = 0 := by rw [hs]
  have key : ∀ cs : List (Bool × Transport),
      (runMessageCycles cs (loadChatBegin st).1).lastMessageId =
        (renderedIds (runMessageCycles cs (loadChatBegin st).1)).foldr max 0 := by
    intro cs
    rw [cursor_after_cycles cs _ hcon1, hcur1, Nat.zero_max]
    simp only [renderedIds, rendered_after_cycles cs _ hbox1 hcon1, hren1, List.nil_append]
    apply foldr_max_congr
    intro x
    rw [mem_newlyAccepted_ids]
    simp
  refine ⟨hcur1, key cycles, ?_⟩
  intro isPolling t hids
  have h := cursor_after_cycles [(isPolling, t)] _ hcon1
  simp only [runMessageCycles, List.foldl_cons, List.foldl_nil, fetchedAll, List.flatMap_cons,
    List.flatMap_nil, List.append_nil] at h
  rw [h, hcur1, hids]
  rfl

theorem cursor_eq_max_accepted_witness :
    (loadChatBegin (initialState sampleEnv sampleStorage)).1.lastMessageId = 0 ∧
    (runMessageCycles [(false, okMessages [sampleMsg 3, sampleMsg 1, sampleMsg 5]),
        (true, okMessages [])] (loadChatBegin (initialState sampleEnv sampleStorage)).1).lastMessageId =
      (renderedIds (runMessageCycles [(false, okMessages [sampleMsg 3, sampleMsg 1, sampleMsg 5]),
        (true, okMessages [])] (loadChatBegin (initialState sampleEnv sampleStorage)).1)).foldr max 0 ∧
    (∀ (isPolling : Bool) (t : Transport), (fetchedBatch t).map (fun m => m.id) = [3, 1, 5] →
      (loadMessages isPolling t
        (loadChatBegin (initialState sampleEnv sampleStorage)).1).lastMessageId = 5) :=
  cursor_eq_max_accepted (initialState sampleEnv sampleStorage) _ (by decide) (by decide)
    (by decide)

/-- C4. In an entered conversation whose page has a chat box, the rendered list
after a `loadMessages` cycle is the previous rendered list followed by the
messages of the fetched batch whose ids were not rendered, first occurrence of
each id, in batch order; a first batch with ids 3, 1, 5 is rendered in the
order 3, 1, 5. -/
theorem rendered_append_newly_accepted (st : State) (isPolling : Bool) (t : Transport)
    (hbox : st.env.hasChatBox = true) (hcontact : truthy st.currentContactId = true) :
    (loadMessages isPolling t st).rendered =
      st.rendered ++ newlyAccepted st.rendered (fetchedBatch t) ∧
    (st.rendered = [] → (fetchedBatch t).map (fun m => m.id) = [3, 1, 5] →
      (loadMessages isPolling t st).rendered = fetchedBatch t ∧
      renderedIds (loadMessages isPolling t st) = [3, 1, 5]) := by
  have h := rendered_after_cycles [(isPolling, t)] st hbox hcontact
  simp only [runMessageCycles, List.foldl_cons, List.foldl_nil, fetchedAll, List.flatMap_cons,
    List.flatMap_nil, List.append_nil] at h
  refine ⟨h, ?_⟩
  intro hempty hids
  have hnew : newlyAccepted [] (fetchedBatch t) = fetchedBatch t := by
    unfold newlyAccepted
    have : (fetchedBatch t).filter (fun m => !(([] : List Msg).any (fun r => r.id == m.id))) =
        fetchedBatch t := by
      apply List.filter_eq_self.mpr
      intro m _
      rfl
    rw [this]
    apply firstOccurrences_of_nodup
    rw [hids]
    decide
  have hr : (loadMessages isPolling t st).rendered = fetchedBatch t := by
    rw [h, hempty, hnew, List.nil_append]
  exact ⟨hr, by rw [renderedIds, hr, hids]⟩

theorem rendered_append_newly_accepted_witness :
    (loadMessages true (okMessages [sampleMsg 5, sampleMsg 6, sampleMsg 6])
        (loadMessages false (okMessages [sampleMsg 3, sampleMsg 1, sampleMsg 5]) sampleChat)).rendered =
      (loadMessages false (okMessages [sampleMsg 3, sampleMsg 1, sampleMsg 5]) sampleChat).rendered ++
        [sampleMsg 6] :=
  (rendered_append_newly_accepted
    (loadMessages false (okMessages [sampleMsg 3, sampleMsg 1, sampleMsg 5]) sampleChat)
    true (okMessages [sampleMsg 5, sampleMsg 6, sampleMsg 6]) (by decide) (by decide)).1.trans
    (by decide)

/-! ## Buzz gate: claims -/

theorem apiCallResume_snd (url : String) (t : Transport) (s s' : State) :
    (apiCallResume url t s).2 = (apiCallResume url t s').2 := by
  cases t with
  | networkError f m =>
    simp only [apiCallResume]
    split <;> rfl
  | response status text parsed =>
    simp only [apiCallResume]
    split_ifs <;> try rfl
    rcases parsed with _ | _ | json <;> rfl

theorem apiCallResume_fst (url : String) (t : Transport) (s : State) :
    (apiCallResume url t s).1 =
      if (apiCallResume url t s).2 = none then handleLogout false s else s := by
  rcases apiCallResume_spec url t s with ⟨o, h, _⟩ | ⟨h, _, _⟩
  · rw [h]
    simp
  · rw [h]
    simp

theorem handleLogout_false_storage (st : State) :
    (handleLogout false st).storage = Storage.clear := by
  unfold handleLogout stopContactPolling stopPolling handleLogoutFinish
  simp

theorem handleLogout_false_lastMessageId (st : State) :
    (handleLogout false st).lastMessageId = st.lastMessageId :=
  congrArg MessageView.lastMessageId (handleLogout_false_messageView st)

theorem sendBuzzBegin_denied (now : Int) (st : State)
    (h : now - st.storage.twin_last_buzz_time.getD 0 < 5000) :
    sendBuzzBegin now st =
      (emit (.alertWait
        ⌈(((5000 - (now - st.storage.twin_last_buzz_time.getD 0) : Int) : ℚ)) / 1000⌉) st,
       false) := by
  unfold sendBuzzBegin
  simp only [BUZZ_COOLDOWN, h, if_true]

theorem sendBuzzBegin_allowed (now : Int) (st : State)
    (h : ¬ now - st.storage.twin_last_buzz_time.getD 0 < 5000) :
    sendBuzzBegin now st = (apiCallBegin "send_buzz.php" "POST" st, true) := by
  unfold sendBuzzBegin
  simp only [BUZZ_COOLDOWN, h, if_false]

theorem sendBuzzBegin_denied_iff (now : Int) (st : State) :
    (sendBuzzBegin now st).2 = false ↔
      now - st.storage.twin_last_buzz_time.getD 0 < 5000 := by
  by_cases h : now - st.storage.twin_last_buzz_time.getD 0 < 5000
  · rw [sendBuzzBegin_denied now st h]
    simp [h]
  · rw [sendBuzzBegin_allowed now st h]
    simp [h]

theorem ceil_div_thousand (x : Int) :
    1000 * (⌈((x : Int) : ℚ) / 1000⌉ - 1) < x ∧ x ≤ 1000 * ⌈((x : Int) : ℚ) / 1000⌉ := by
  have h1 : ((x : ℚ) / 1000) ≤ (⌈(x : ℚ) / 1000⌉ : ℚ) := Int.le_ceil _
  have h2 : ((⌈(x : ℚ) / 1000⌉ : ℚ)) < (x : ℚ) / 1000 + 1 := Int.ceil_lt_add_one _
  constructor
  · have : ((1000 * (⌈(x : ℚ) / 1000⌉ - 1) : Int) : ℚ) < ((x : Int) : ℚ) := by
      push_cast
      linarith
    exact_mod_cast this
  · have : ((x : Int) : ℚ) ≤ ((1000 * ⌈(x : ℚ) / 1000⌉ : Int) : ℚ) := by
      push_cast
      linarith
    exact_mod_cast this

/-- C5. The gate of `sendBuzz` denies a call at time `now` exactly when
`now - last < 5000`, where `last` is the stored timestamp, or `0` when none is
stored.  A denied call issues no request and only reports the wait
`⌈(5000 - (now - last)) / 1000⌉`, the least number of whole seconds covering
the remaining time; a call with `now - last = 5000` is allowed. -/
theorem buzz_gate_decision (st : State) (now : Int) :
    ((sendBuzzBegin now st).2 = false ↔ now - st.storage.twin_last_buzz_time.getD 0 < 5000) ∧
    (now - st.storage.twin_last_buzz_time.getD 0 < 5000 →
      ∃ wait : Int, (sendBuzzBegin now st).1 = emit (.alertWait wait) st ∧
        (wait : ℚ) = ⌈((5000 - (now - st.storage.twin_last_buzz_time.getD 0) : ℚ)) / 1000⌉ ∧
        1000 * (wait - 1) < 5000 - (now - st.storage.twin_last_buzz_time.getD 0) ∧
        5000 - (now - st.storage.twin_last_buzz_time.getD 0) ≤ 1000 * wait) ∧
    (now - st.storage.twin_last_buzz_time.getD 0 = 5000 →
      sendBuzzBegin now st = (apiCallBegin "send_buzz.php" "POST" st, true)) ∧
    (st.storage.twin_last_buzz_time = none →
      ((sendBuzzBegin now st).2 = false ↔ now < 5000)) := by
  have hiff := sendBuzzBegin_denied_iff now st
  refine ⟨hiff, ?_, ?_, ?_⟩
  · intro h
    refine ⟨_, by rw [sendBuzzBegin_denied now st h], ?_, ?_⟩
    · push_cast
      rfl
    · exact ceil_div_thousand _
  · intro h
    exact sendBuzzBegin_allowed now st (by omega)
  · intro hnone
    rw [hiff, hnone]
    simp

theorem buzz_gate_decision_witness :
    (sendBuzzBegin 6001 (sendBuzzResume 5000 (okMessages []) sampleChat)).2 = false ∧
    (sendBuzzBegin 10000 (sendBuzzResume 5000 (okMessages []) sampleChat)).2 = true :=
  ⟨(buzz_gate_decision (sendBuzzResume 5000 (okMessages []) sampleChat) 6001).1.mpr (by decide),
   by decide⟩

theorem sendBuzzResume_rejected (now : Int) (t : Transport) (st : State) (r : JsonObj)
    (hr : (apiCallResume "send_buzz.php" t st).2 = some r) (hs : r.success = false) :
    sendBuzzResume now t st = emit (.alert "No se pudo enviar el Zumbido.") st := by
  have h1 := apiCallResume_fst "send_buzz.php" t st
  rw [hr] at h1
  simp only [reduceCtorEq, if_false] at h1
  have hp : apiCallResume "send_buzz.php" t st = (st, some r) := Prod.ext h1 hr
  unfold sendBuzzResume
  rw [hp]
  simp [hs]

theorem sendBuzzResume_null (now : Int) (t : Transport) (st : State)
    (hr : (apiCallResume "send_buzz.php" t st).2 = none) :
    sendBuzzResume now t st =
      emit (.alert "No se pudo enviar el Zumbido.") (handleLogout false st) := by
  have h1 := apiCallResume_fst "send_buzz.php" t st
  rw [hr] at h1
  simp only [if_true] at h1
  have hp : apiCallResume "send_buzz.php" t st = (handleLogout false st, none) := Prod.ext h1 hr
  unfold sendBuzzResume
  rw [hp]
  simp

theorem sendBuzzResume_success (now : Int) (t : Transport) (st : State) (r : JsonObj)
    (hr : (apiCallResume "send_buzz.php" t st).2 = some r) (hs : r.success = true) :
    (sendBuzzResume now t st).storage = { st.storage with twin_last_buzz_time := some now } ∧
    (sendBuzzResume now t st).lastMessageId = st.lastMessageId := by
  have h1 := apiCallResume_fst "send_buzz.php" t st
  rw [hr] at h1
  simp only [reduceCtorEq, if_false] at h1
  have hp : apiCallResume "send_buzz.php" t st = (st, some r) := Prod.ext h1 hr
  unfold sendBuzzResume
  rw [hp]
  simp only [hs, if_true]
  unfold shakeElement loadMessagesBegin apiCallBegin emit
  cases st.pollingTimer <;> simp only [clearTimeout] <;> split_ifs <;> exact ⟨rfl, rfl⟩

/-- C6, as stated, fails: with the timestamp 5000 stored, a call at 20000 passes
the gate, its request is answered 401, `apiCall` returns `null`, and the
stored timestamp is gone. -/
theorem buzz_null_clears_timestamp :
    sampleBuzzed.storage.twin_last_buzz_time = some 5000 ∧
    (sendBuzzBegin 20000 sampleBuzzed).2 = true ∧
    (apiCallResume "send_buzz.php" (.response 401 [] none) sampleBuzzed).2 = none ∧
    (sendBuzz 20000 (.response 401 [] none) sampleBuzzed).storage.twin_last_buzz_time = none := by
  decide

/-- C6, amended. A call of `sendBuzz` leaves the session store, the stored
timestamp included, unchanged when the gate denies it and when the gate allows
it but `apiCall` returns a failure value; when `apiCall` returns `null`
(status 401) the whole store has been cleared, so the timestamp is absent and
is not set to `now`.  None of these cases changes the cursor.  The same holds
for the continuation of `sendBuzz` from whatever state it resumes in. -/
theorem buzz_rejected_frame (st : State) (now : Int) (t : Transport) :
    ((sendBuzzBegin now st).2 = false →
      (sendBuzz now t st).storage = st.storage ∧
      (sendBuzz now t st).lastMessageId = st.lastMessageId) ∧
    (∀ r : JsonObj, (apiCallResume "send_buzz.php" t st).2 = some r → r.success = false →
      (sendBuzzResume now t st).storage = st.storage ∧
      (sendBuzzResume now t st).lastMessageId = st.lastMessageId ∧
      (sendBuzz now t st).storage = st.storage ∧
      (sendBuzz now t st).lastMessageId = st.lastMessageId) ∧
    ((apiCallResume "send_buzz.php" t st).2 = none →
      (sendBuzzResume now t st).storage = Storage.clear ∧
      (sendBuzzResume now t st).lastMessageId = st.lastMessageId ∧
      ((sendBuzzBegin now st).2 = true → (sendBuzz now t st).storage = Storage.clear) ∧
      (sendBuzz now t st).lastMessageId = st.lastMessageId) := by
  have hden : (sendBuzzBegin now st).2 = false →
      (sendBuzz now t st).storage = st.storage ∧
      (sendBuzz now t st).lastMessageId = st.lastMessageId := by
    intro h
    have hlt := (sendBuzzBegin_denied_iff now st).mp h
    unfold sendBuzz
    rw [sendBuzzBegin_denied now st hlt]
    exact ⟨rfl, rfl⟩
  have hall : ¬ now - st.storage.twin_last_buzz_time.getD 0 < 5000 →
      sendBuzz now t st = sendBuzzResume now t (apiCallBegin "send_buzz.php" "POST" st) := by
    intro h
    unfold sendBuzz
    rw [sendBuzzBegin_allowed now st h]
    rfl
  refine ⟨hden, ?_, ?_⟩
  · intro r hr hs
    have e1 := sendBuzzResume_rejected now t st r hr hs
    refine ⟨by rw [e1]; rfl, by rw [e1]; rfl, ?_⟩
    by_cases h : now - st.storage.twin_last_buzz_time.getD 0 < 5000
    · exact hden ((sendBuzzBegin_denied_iff now st).mpr h)
    · rw [hall h, sendBuzzResume_rejected now t _ r
        ((apiCallResume_snd _ t _ st).trans hr) hs]
      exact ⟨rfl, rfl⟩
  · intro hr
    have e1 := sendBuzzResume_null now t st hr
    refine ⟨by rw [e1]; exact handleLogout_false_storage st,
      by rw [e1]; exact handleLogout_false_lastMessageId st, ?_, ?_⟩
    · intro hallow
      have h : ¬ now - st.storage.twin_last_buzz_time.getD 0 < 5000 := by
        intro hlt
        rw [(sendBuzzBegin_denied_iff now st).mpr hlt] at hallow
        exact Bool.false_ne_true hallow
      rw [hall h, sendBuzzResume_null now t _ ((apiCallResume_snd _ t _ st).trans hr)]
      exact handleLogout_false_storage (apiCallBegin "send_buzz.php" "POST" st)
    · by_cases h : now - st.storage.twin_last_buzz_time.getD 0 < 5000
      · exact (hden ((sendBuzzBegin_denied_iff now st).mpr h)).2
      · rw [hall h, sendBuzzResume_null now t _ ((apiCallResume_snd _ t _ st).trans hr)]
        exact handleLogout_false_lastMessageId _

theorem buzz_rejected_frame_witness :
    (sendBuzz 6000 (okMessages []) sampleBuzzed).storage = sampleBuzzed.storage ∧
    (sendBuzz 20000 (.response 500 [] none) sampleBuzzed).storage = sampleBuzzed.storage ∧
    (sendBuzz 20000 (.response 401 [] none) sampleBuzzed).storage = Storage.clear :=
  ⟨((buzz_rejected_frame sampleBuzzed 6000 (okMessages [])).1 (by decide)).1,
   ((buzz_rejected_frame sampleBuzzed 20000 (.response 500 [] none)).2.1
      (failure "Respuesta inválida del servidor") (by decide) (by decide)).2.2.1,
   ((buzz_rejected_frame sampleBuzzed 20000 (.response 401 [] none)).2.2 (by decide)).2.2.1
      (by decide)⟩

theorem sendBuzz_storage_denied (later : Int) (t : Transport) (s : State)
    (h : (sendBuzzBegin later s).2 = false) : (sendBuzz later t s).storage = s.storage := by
  have hlt := (sendBuzzBegin_denied_iff later s).mp h
  unfold sendBuzz
  rw [sendBuzzBegin_denied later s hlt]
  rfl

theorem sendBuzz_storage_rejected (later : Int) (t : Transport) (s : State) (r : JsonObj)
    (hr : (apiCallResume "send_buzz.php" t s).2 = some r) (hs : r.success = false) :
    (sendBuzz later t s).storage = s.storage := by
  by_cases h : later - s.storage.twin_last_buzz_time.getD 0 < 5000
  · exact sendBuzz_storage_denied later t s ((sendBuzzBegin_denied_iff later s).mpr h)
  · unfold sendBuzz
    rw [sendBuzzBegin_allowed later s h]
    simp only [if_true]
    rw [sendBuzzResume_rejected later t _ r ((apiCallResume_snd _ t _ s).trans hr) hs]
    rfl

theorem runBuzzCalls_storage (calls : List (Int × Transport)) (s st : State)
    (hcalls : ∀ c ∈ calls, ∃ r : JsonObj,
      (apiCallResume "send_buzz.php" c.2 st).2 = some r ∧ r.success = false) :
    (runBuzzCalls calls s).storage = s.storage := by
  induction calls generalizing s with
  | nil => rfl
  | cons c cs ih =>
    obtain ⟨r, hr, hs⟩ := hcalls c (List.mem_cons_self _ _)
    have h1 : (sendBuzz c.1 c.2 s).storage = s.storage :=
      sendBuzz_storage_rejected c.1 c.2 s r ((apiCallResume_snd _ c.2 s st).trans hr) hs
    have h2 := ih (sendBuzz c.1 c.2 s) (fun d hd => hcalls d (List.mem_cons_of_mem _ hd))
    simp only [runBuzzCalls, List.foldl_cons] at h2 ⊢
    rw [h2, h1]

/-- Two calls of `sendBuzz` started 1 ms apart, the second before the request
of the first has settled: both pass the gate and both requests go out. -/
theorem buzz_double_fire :
    (sendBuzzBegin 10000 sampleChat).2 = true ∧
    (sendBuzzBegin 10000 sampleChat).1.storage.twin_last_buzz_time = none ∧
    (sendBuzzBegin 10001 (sendBuzzBegin 10000 sampleChat).1).2 = true ∧
    ((sendBuzzBegin 10001 (sendBuzzBegin 10000 sampleChat).1).1.effects.filter
      (fun e => e == Effect.fetch "send_buzz.php" "POST" (some "abc"))).length = 2 := by
  decide

/-- C7, as stated, fails: the gate allows a call at time 10000 and the allow
decision stores no timestamp; the request is answered with a failure value, so
nothing is stored afterwards either, and a second call at 10001, started after
the first has completed, passes the gate as well. -/
theorem buzz_allow_stores_no_timestamp :
    (sendBuzzBegin 10000 sampleChat).2 = true ∧
    (sendBuzzBegin 10000 sampleChat).1.storage.twin_last_buzz_time = none ∧
    (apiCallResume "send_buzz.php" (.response 500 [] none) sampleChat).2 =
      some (failure "Respuesta inválida del servidor") ∧
    (sendBuzz 10000 (.response 500 [] none) sampleChat).storage.twin_last_buzz_time = none ∧
    (sendBuzzBegin 10001 (sendBuzz 10000 (.response 500 [] none) sampleChat)).2 = true := by
  decide

/-- C7, amended. When the request of a call allowed at `now` settles with a
success value, the continuation sets the stored timestamp to `now`, from
whatever state it resumes in.  In every state whose stored timestamp is `now`,
a call of `sendBuzz` that starts less than 5000 ms after `now` is denied.  A
call that is denied, or whose request settles with a failure value, leaves the
store as it was; so after the successful call and any run of further calls
whose requests settle with failure values the timestamp is still `now` and a
call less than 5000 ms after `now` is still denied. -/
theorem buzz_timestamp_on_success (st : State) (now : Int) (t : Transport) (r : JsonObj)
    (hr : (apiCallResume "send_buzz.php" t st).2 = some r) (hs : r.success = true) :
    (sendBuzzResume now t st).storage.twin_last_buzz_time = some now ∧
    (∀ (s : State) (later : Int), s.storage.twin_last_buzz_time = some now →
      later - now < 5000 → (sendBuzzBegin later s).2 = false) ∧
    (∀ (s : State) (later : Int) (t' : Transport),
      ((sendBuzzBegin later s).2 = false ∨
        ∃ r' : JsonObj, (apiCallResume "send_buzz.php" t' s).2 = some r' ∧ r'.success = false) →
      (sendBuzz later t' s).storage = s.storage) ∧
    (∀ calls : List (Int × Transport),
      (∀ c ∈ calls, ∃ r' : JsonObj,
        (apiCallResume "send_buzz.php" c.2 st).2 = some r' ∧ r'.success = false) →
      (runBuzzCalls calls (sendBuzzResume now t st)).storage.twin_last_buzz_time = some now ∧
      ∀ later : Int, later - now < 5000 →
        (sendBuzzBegin later (runBuzzCalls calls (sendBuzzResume now t st))).2 = false) := by
  have hts : (sendBuzzResume now t st).storage.twin_last_buzz_time = some now := by
    rw [(sendBuzzResume_success now t st r hr hs).1]
  have hdeny : ∀ (s : State) (later : Int), s.storage.twin_last_buzz_time = some now →
      later - now < 5000 → (sendBuzzBegin later s).2 = false := by
    intro s later hs' hlater
    rw [sendBuzzBegin_denied_iff, hs']
    exact hlater
  refine ⟨hts, hdeny, ?_, ?_⟩
  · intro s later t' h
    rcases h with h | ⟨r', hr', hs'⟩
    · exact sendBuzz_storage_denied later t' s h
    · exact sendBuzz_storage_rejected later t' s r' hr' hs'
  · intro calls hcalls
    have hrun : (runBuzzCalls calls (sendBuzzResume now t st)).storage.twin_last_buzz_time
        = some now := by
      rw [runBuzzCalls_storage calls _ st hcalls, hts]
    exact ⟨hrun, fun later hl => hdeny _ later hrun hl⟩

theorem buzz_timestamp_on_success_witness :
    (sendBuzzResume 10000 (okMessages []) (sendBuzzBegin 10000 sampleChat).1).storage.twin_last_buzz_time
      = some 10000 ∧
    (sendBuzzBegin 14999 (runBuzzCalls [(12000, .response 500 [] none), (16000, .response 404 [] none)]
      (sendBuzzResume 10000 (okMessages []) (sendBuzzBegin 10000 sampleChat).1))).2 = false :=
  ⟨(buzz_timestamp_on_success (sendBuzzBegin 10000 sampleChat).1 10000 (okMessages [])
      (successValue []) (by decide) (by decide)).1,
   ((buzz_timestamp_on_success (sendBuzzBegin 10000 sampleChat).1 10000 (okMessages [])
      (successValue []) (by decide) (by decide)).2.2.2
      [(12000, .response 500 [] none), (16000, .response 404 [] none)]
      (by decide)).2 14999 (by decide)⟩

/-! ## Contact ordering: claims -/

theorem compareContacts_le_iff (lc : String → String → Int) (a b : Contact) :
    compareContacts lc a b ≤ 0 ↔ contactBefore lc a b := by
  unfold compareContacts contactBefore
  by_cases ha : a.unread_count > 0 <;> by_cases hb : b.unread_count > 0 <;>
    by_cases hsa : a.status = "online" <;> by_cases hsb : b.status = "online" <;>
    simp [ha, hb, hsa, hsb]

theorem compareContacts_total (lc : String → String → Int) (hlc : ConsistentCompare lc)
    (a b : Contact) : compareContacts lc a b ≤ 0 ∨ compareContacts lc b a ≤ 0 := by
  have hn : lc a.name b.name ≤ 0 ∨ lc b.name a.name ≤ 0 := by
    by_cases h : lc a.name b.name ≤ 0
    · exact Or.inl h
    · exact Or.inr (le_of_lt ((hlc.swap _ _).mpr (not_le.mp h)))
  unfold compareContacts
  by_cases ha : a.unread_count > 0 <;> by_cases hb : b.unread_count > 0 <;>
    by_cases hsa : a.status = "online" <;> by_cases hsb : b.status = "online" <;>
    simp [ha, hb, hsa, hsb] <;> exact hn

theorem compareContacts_trans (lc : String → String → Int) (hlc : ConsistentCompare lc)
    (a b c : Contact) (h1 : compareContacts lc a b ≤ 0) (h2 : compareContacts lc b c ≤ 0) :
    compareContacts lc a c ≤ 0 := by
  have hn := hlc.trans a.name b.name c.name
  unfold compareContacts at h1 h2 ⊢
  by_cases ha : a.unread_count > 0 <;> by_cases hb : b.unread_count > 0 <;>
    by_cases hc : c.unread_count > 0 <;>
    by_cases hsa : a.status = "online" <;> by_cases hsb : b.status = "online" <;>
    by_cases hsc : c.status = "online" <;>
    simp [ha, hb, hc, hsa, hsb, hsc] at h1 h2 ⊢ <;> exact hn h1 h2

theorem sampleLocaleCompare_consistent : ConsistentCompare sampleLocaleCompare := by
  constructor
  · intro a b
    unfold sampleLocaleCompare
    rcases lt_trichotomy a.data b.data with h | h | h
    · have h1 : ¬ b.data < a.data := not_lt.mpr (le_of_lt h)
      have h2 : ¬ b.data = a.data := fun e => (ne_of_lt h) e.symm
      simp [h, h1, h2]
    · simp [h]
    · have h1 : ¬ a.data < b.data := not_lt.mpr (le_of_lt h)
      have h2 : ¬ a.data = b.data := fun e => (ne_of_lt h) e.symm
      simp [h, h1, h2]
  · have key : ∀ x y : String, sampleLocaleCompare x y ≤ 0 ↔ x.data ≤ y.data := by
      intro x y
      unfold sampleLocaleCompare
      rcases lt_trichotomy x.data y.data with h | h | h
      · simp [h, le_of_lt h]
      · simp [h]
      · have h1 : ¬ x.data < y.data := not_lt.mpr (le_of_lt h)
        have h2 : ¬ x.data = y.data := fun e => (ne_of_lt h) e.symm
        simp [h1, h2, h]
    intro a b c h1 h2
    rw [key] at h1 h2 ⊢
    exact le_trans h1 h2

theorem sorted_perm_unique {α : Type} (r : α → α → Prop) :
    ∀ (l₁ l₂ : List α), l₁.Perm l₂ → l₁.Pairwise r → l₂.Pairwise r →
      (∀ a ∈ l₁, ∀ b ∈ l₁, r a b → r b a → a = b) → l₁ = l₂
  | [], l₂, hp, _, _, _ => hp.nil_eq
  | a :: t₁, [], hp, _, _, _ => absurd hp.symm.nil_eq (List.cons_ne_nil a t₁).symm
  | a :: t₁, b :: t₂, hp, h₁, h₂, anti => by
    have hab : a = b := by
      by_contra hne
      have ha : a ∈ t₂ := by
        have : a ∈ b :: t₂ := hp.subset (List.mem_cons_self _ _)
        rcases List.mem_cons.mp this with h | h
        · exact absurd h hne
        · exact h
      have hb : b ∈ t₁ := by
        have : b ∈ a :: t₁ := hp.symm.subset (List.mem_cons_self _ _)
        rcases List.mem_cons.mp this with h | h
        · exact absurd h.symm hne
        · exact h
      exact hne (anti a (List.mem_cons_self _ _) b (List.mem_cons_of_mem _ hb)
        ((List.pairwise_cons.mp h₁).1 b hb) ((List.pairwise_cons.mp h₂).1 a ha))
    subst hab
    have ht := sorted_perm_unique r t₁ t₂ (List.Perm.cons_inv hp) (List.pairwise_cons.mp h₁).2
      (List.pairwise_cons.mp h₂).2
      (fun x hx y hy => anti x (List.mem_cons_of_mem _ hx) y (List.mem_cons_of_mem _ hy))
    rw [ht]

theorem renderContacts_rows (lc : String → String → Int) (st : State) (contacts : List Contact)
    (hbox : st.env.hasChatsContainer = true) (hne : contacts ≠ []) :
    (renderContacts lc contacts st).contactRows = jsSort (compareContacts lc) contacts := by
  unfold renderContacts
  have hl : ¬ contacts.length = 0 := fun h => hne (List.length_eq_zero.mp h)
  simp [hbox, hl]

theorem jsSort_perm (lc : String → String → Int) (l : List Contact) :
    (jsSort (compareContacts lc) l).Perm l :=
  List.perm_insertionSort _ l

theorem jsSort_pairwise (lc : String → String → Int) (hlc : ConsistentCompare lc)
    (l : List Contact) :
    (jsSort (compareContacts lc) l).Pairwise (fun a b => compareContacts lc a b ≤ 0) := by
  haveI : IsTotal Contact (fun a b => compareContacts lc a b ≤ 0) :=
    ⟨compareContacts_total lc hlc⟩
  haveI : IsTrans Contact (fun a b => compareContacts lc a b ≤ 0) :=
    ⟨compareContacts_trans lc hlc⟩
  exact List.sorted_insertionSort (fun a b => compareContacts lc a b ≤ 0) l

theorem compareContacts_swap (lc : String → String → Int) (hlc : ConsistentCompare lc)
    (a b : Contact) : compareContacts lc a b < 0 ↔ 0 < compareContacts lc b a := by
  have hn := hlc.swap a.name b.name
  unfold compareContacts
  by_cases ha : a.unread_count > 0 <;> by_cases hb : b.unread_count > 0 <;>
    by_cases hsa : a.status = "online" <;> by_cases hsb : b.status = "online" <;>
    simp [ha, hb, hsa, hsb] <;> exact hn

theorem compareContacts_tie (lc : String → String → Int) (hlc : ConsistentCompare lc)
    (a b : Contact) (h1 : compareContacts lc a b ≤ 0) (h2 : compareContacts lc b a ≤ 0) :
    compareContacts lc a b = 0 := by
  rcases lt_or_eq_of_le h1 with h | h
  · exact absurd ((compareContacts_swap lc hlc a b).mp h) (not_lt.mpr h2)
  · exact h

theorem jsSort_eq_of_sorted (lc : String → String → Int) (hlc : ConsistentCompare lc)
    (input target : List Contact) (hp : input.Perm target)
    (hs : target.Pairwise (fun a b => compareContacts lc a b ≤ 0))
    (anti : ∀ a ∈ target, ∀ b ∈ target, compareContacts lc a b = 0 → a = b) :
    jsSort (compareContacts lc) input = target := by
  symm
  apply sorted_perm_unique (fun a b => compareContacts lc a b ≤ 0) target _
    (hp.symm.trans (jsSort_perm lc input).symm) hs (jsSort_pairwise lc hlc input)
  intro a ha b hb h1 h2
  exact anti a ha b hb (compareContacts_tie lc hlc a b h1 h2)

/-- C8. On a page with the contact container and given a consistent
`localeCompare`, the rows `renderContacts` renders for a non-empty list are a
permutation of the input ordered by: unread first, then online first, then
name ascending.  The order is stable: two contacts that compare equal keep
their input order.  It is deterministic: every reordering of an input without
ties gives the same rows.  Contacts A (unread 2, online), B (unread 0, online),
C (unread 0, offline) are rendered as A, B, C; A (unread 0, offline, "Zed"),
B (unread 0, offline, "Ann") are rendered as B, A when "Ann" sorts first. -/
theorem contacts_render_order (lc : String → String → Int) (hlc : ConsistentCompare lc)
    (st : State) (contacts : List Contact)
    (hbox : st.env.hasChatsContainer = true) (hne : contacts ≠ []) :
    (renderContacts lc contacts st).contactRows.Perm contacts ∧
    (renderContacts lc contacts st).contactRows.Pairwise (contactBefore lc) ∧
    (∀ a b : Contact, List.Sublist [a, b] contacts → compareContacts lc a b = 0 →
      List.Sublist [a, b] (renderContacts lc contacts st).contactRows) ∧
    (∀ other : List Contact, other.Perm contacts →
      (∀ a ∈ contacts, ∀ b ∈ contacts, compareContacts lc a b = 0 → a = b) →
      (renderContacts lc other st).contactRows = (renderContacts lc contacts st).contactRows) ∧
    (∀ A B C : Contact, A.unread_count = 2 → A.status = "online" →
      B.unread_count = 0 → B.status = "online" → C.unread_count = 0 → C.status = "offline" →
      ∀ input : List Contact, input.Perm [A, B, C] →
        (renderContacts lc input st).contactRows = [A, B, C]) ∧
    (lc "Ann" "Zed" < 0 → ∀ A B : Contact,
      A.unread_count = 0 → A.status = "offline" → A.name = "Zed" →
      B.unread_count = 0 → B.status = "offline" → B.name = "Ann" →
      ∀ input : List Contact, input.Perm [A, B] →
        (renderContacts lc input st).contactRows = [B, A]) := by
  have hrows := renderContacts_rows lc st contacts hbox hne
  have hne_of_perm : ∀ {l m : List Contact}, l.Perm m → m ≠ [] → l ≠ [] := by
    intro l m hp hm hl
    rw [hl] at hp
    exact hm hp.symm.eq_nil
  refine ⟨?_, ?_, ?_, ?_, ?_, ?_⟩
  · rw [hrows]
    exact jsSort_perm lc contacts
  · rw [hrows]
    exact (jsSort_pairwise lc hlc contacts).imp (fun h => (compareContacts_le_iff lc _ _).mp h)
  · intro a b hsub hz
    rw [hrows]
    exact List.pair_sublist_insertionSort (r := fun a b => compareContacts lc a b ≤ 0)
      (le_of_eq hz) hsub
  · intro other hp anti
    rw [hrows, renderContacts_rows lc st other hbox (hne_of_perm hp hne)]
    apply jsSort_eq_of_sorted lc hlc other _ (hp.trans (jsSort_perm lc contacts).symm)
      (jsSort_pairwise lc hlc contacts)
    intro a ha b hb hz
    exact anti a ((jsSort_perm lc contacts).subset ha) b ((jsSort_perm lc contacts).subset hb) hz
  · intro A B C hA1 hA2 hB1 hB2 hC1 hC2 input hp
    rw [renderContacts_rows lc st input hbox (hne_of_perm hp (List.cons_ne_nil _ _))]
    have hoff : ¬ ("offline" = "online") := by decide
    have cAB : compareContacts lc A B = -1 := by
      simp [compareContacts, hA1, hB1]
    have cAC : compareContacts lc A C = -1 := by
      simp [compareContacts, hA1, hC1]
    have cBC : compareContacts lc B C = -1 := by
      simp [compareContacts, hB1, hC1, hB2, hC2, hoff]
    have cBA : compareContacts lc B A = 1 := by
      simp [compareContacts, hA1, hB1]
    have cCA : compareContacts lc C A = 1 := by
      simp [compareContacts, hA1, hC1]
    have cCB : compareContacts lc C B = 1 := by
      simp [compareContacts, hB1, hC1, hB2, hC2, hoff]
    apply jsSort_eq_of_sorted lc hlc input _ hp
    · simp [cAB, cAC, cBC]
    · intro a ha b hb hz
      simp only [List.mem_cons, List.mem_singleton, List.not_mem_nil, or_false] at ha hb
      rcases ha with rfl | rfl | rfl <;> rcases hb with rfl | rfl | rfl <;>
        first
        | rfl
        | (exfalso; simp_all)
  · intro hAnn A B hA1 hA2 hA3 hB1 hB2 hB3 input hp
    rw [renderContacts_rows lc st input hbox (hne_of_perm hp (List.cons_ne_nil _ _))]
    have cBA : compareContacts lc B A < 0 := by
      simp [compareContacts, hA1, hB1, hA2, hB2, hA3, hB3, hAnn]
    have cAB : 0 < compareContacts lc A B := (compareContacts_swap lc hlc B A).mp cBA
    apply jsSort_eq_of_sorted lc hlc input _ (hp.trans (List.Perm.swap B A []))
    · simp [le_of_lt cBA]
    · intro a ha b hb hz
      simp only [List.mem_cons, List.mem_singleton, List.not_mem_nil, or_false] at ha hb
      rcases ha with rfl | rfl <;> rcases hb with rfl | rfl <;>
        first
        | rfl
        | (exfalso; omega)

theorem contacts_render_order_witness :
    (renderContacts sampleLocaleCompare [contactA, contactB, contactC] sampleMain).contactRows
      = [contactC, contactB, contactA] ∧
    (renderContacts sampleLocaleCompare [contactA, contactB] sampleMain).contactRows
      = [contactB, contactA] :=
  ⟨by decide,
   (contacts_render_order sampleLocaleCompare sampleLocaleCompare_consistent sampleMain
      [contactA, contactB] (by decide) (by decide)).2.2.2.2.2 (by decide) contactA contactB
      rfl rfl rfl rfl rfl rfl [contactA, contactB] (List.Perm.refl _)⟩

/-! ## Contact loop: claims -/

theorem foldl_unread_eq (cs : List Contact) (n : Nat) :
    cs.foldl (fun (sum : Nat) (c : Contact) => sum + c.unread_count) n = n + totalUnread cs := by
  induction cs generalizing n with
  | nil => simp [totalUnread]
  | cons c cs ih =>
    rw [List.foldl_cons, ih]
    simp [totalUnread, Nat.add_assoc]

theorem notificationEvents_emit (e : Effect) (st : State) :
    notificationEvents (emit e st) = notificationEvents st ++
      (match e with
        | .calledNewMessage n => [n]
        | _ => []) := by
  unfold notificationEvents emit
  rw [List.filterMap_append]
  cases e <;> rfl

theorem triggerNewMessageNotification_frame (count : Nat) (st : State) :
    ∃ es, triggerNewMessageNotification count st = { st with effects := es } ∧
      notificationEvents (triggerNewMessageNotification count st) =
        notificationEvents st ++ [count] := by
  unfold triggerNewMessageNotification playNotificationSound
  simp only [emit_eq]
  split_ifs <;> refine ⟨_, rfl, ?_⟩ <;>
    simp [notificationEvents, List.filterMap_append]

theorem renderContacts_contactView (lc : String → String → Int) (cs : List Contact) (st : State) :
    (renderContacts lc cs st).contactView = st.contactView := by
  unfold renderContacts
  split_ifs <;> rfl

theorem rearmContacts_contactView (st : State) :
    ({ (setTimeout .loadContacts (match st.contactPollingTimer with
        | some id => clearTimeout id st
        | none => st)).1 with
        contactPollingTimer := some (setTimeout .loadContacts (match st.contactPollingTimer with
        | some id => clearTimeout id st
        | none => st)).2 } : State).contactView = st.contactView := by
  cases st.contactPollingTimer <;> rfl

theorem ite_renderContacts_contactView (lc : String → String → Int) (cs : List Contact)
    (c : Bool) (st : State) :
    (if c = true then renderContacts lc cs st else st).contactView = st.contactView := by
  cases c
  · rfl
  · exact renderContacts_contactView lc cs st

theorem triggerNewMessageNotification_contactView (count : Nat) (st : State) :
    (triggerNewMessageNotification count st).contactView =
      { st.contactView with events := notificationEvents st ++ [count] } := by
  obtain ⟨es, hes, hev⟩ := triggerNewMessageNotification_frame count st
  have h : (triggerNewMessageNotification count st).contactView =
      { st.contactView with
        events := notificationEvents (triggerNewMessageNotification count st) } := by
    rw [hes]
    rfl
  rw [h, hev]

theorem notifyStep_contactView (total : Nat) (st : State) :
    (if total > st.totalUnreadCount then
        (if (!st.env.pathIncludesConversationHtml && decide (total - st.totalUnreadCount > 0))
            = true
          then triggerNewMessageNotification (total - st.totalUnreadCount) st else st)
      else st).contactView =
      { st.contactView with
        events := notificationEvents st ++
          (if total > st.totalUnreadCount ∧ st.env.pathIncludesConversationHtml = false
            then [total - st.totalUnreadCount] else []) } := by
  by_cases hgt : total > st.totalUnreadCount
  · have hd : total - st.totalUnreadCount > 0 := Nat.sub_pos_of_lt hgt
    cases hpage : st.env.pathIncludesConversationHtml
    · rw [if_pos hgt, if_pos (by simp [hd]), if_pos ⟨hgt, rfl⟩]
      exact triggerNewMessageNotification_contactView _ st
    · rw [if_pos hgt, if_neg (by simp), if_neg (by simp), List.append_nil]
      rfl
  · rw [if_neg hgt, if_neg (fun h => hgt h.1), List.append_nil]
    rfl

theorem loadContactsResume_success (lc : String → String → Int) (t : Transport) (st : State)
    (r : JsonObj) (hr : (apiCallResume "contacts.php" t st).2 = some r)
    (hs : r.success = true) :
    (loadContactsResume lc t st).contactView =
      { st.contactView with
        totalUnreadCount := totalUnread r.contacts,
        events := notificationEvents st ++
          (if totalUnread r.contacts > st.totalUnreadCount ∧
              st.env.pathIncludesConversationHtml = false
            then [totalUnread r.contacts - st.totalUnreadCount] else []) } := by
  have h1 := apiCallResume_fst "contacts.php" t st
  rw [hr] at h1
  simp only [reduceCtorEq, if_false] at h1
  have hp : apiCallResume "contacts.php" t st = (st, some r) := Prod.ext h1 hr
  have hn := notifyStep_contactView (totalUnread r.contacts) st
  unfold loadContactsResume
  rw [hp]
  simp only [hs, if_true, foldl_unread_eq, Nat.zero_add]
  rw [rearmContacts_contactView, ite_renderContacts_contactView]
  simp only [State.contactView] at hn ⊢
  simp only [ContactView.mk.injEq] at hn ⊢
  exact ⟨hn.1, hn.2.1, trivial, hn.2.2.2⟩

theorem apiCallBegin_contactView (endpoint method : String) (st : State) :
    (apiCallBegin endpoint method st).contactView = st.contactView := by
  unfold apiCallBegin
  simp only [State.contactView, notificationEvents_emit, List.append_nil]
  rfl

theorem loadContactsBegin_snd (st : State) :
    (loadContactsBegin st).2 =
      !(!truthy st.storage.user_name && !st.env.pathIncludesIndex) := by
  unfold loadContactsBegin
  split_ifs with h
  · simp [h]
  · simp only [Bool.not_eq_true] at h
    simp [h]

theorem loadContacts_success (lc : String → String → Int) (t : Transport) (st : State)
    (r : JsonObj) (hsent : (loadContactsBegin st).2 = true)
    (hr : (apiCallResume "contacts.php" t st).2 = some r) (hs : r.success = true) :
    (loadContacts lc t st).contactView =
      { st.contactView with
        totalUnreadCount := totalUnread r.contacts,
        events := notificationEvents st ++
          (if totalUnread r.contacts > st.totalUnreadCount ∧
              st.env.pathIncludesConversationHtml = false
            then [totalUnread r.contacts - st.totalUnreadCount] else []) } := by
  have hb : loadContactsBegin st = (apiCallBegin "contacts.php" "GET" st, true) := by
    unfold loadContactsBegin at hsent ⊢
    by_cases h : (!truthy st.storage.user_name && !st.env.pathIncludesIndex) = true
    · rw [if_pos h] at hsent
      exact absurd hsent (by simp)
    · rw [if_neg h]
  unfold loadContacts
  rw [hb]
  simp only [if_true]
  have h := loadContactsResume_success lc t (apiCallBegin "contacts.php" "GET" st) r
    ((apiCallResume_snd _ t _ st).trans hr) hs
  rw [h]
  have hv := apiCallBegin_contactView "contacts.php" "GET" st
  simp only [State.contactView, ContactView.mk.injEq] at hv ⊢
  obtain ⟨e1, e2, e3, e4⟩ := hv
  refine ⟨e1, e2, trivial, ?_⟩
  rw [e4]
  have e5 : (apiCallBegin "contacts.php" "GET" st).totalUnreadCount = st.totalUnreadCount := e3
  have e6 : (apiCallBegin "contacts.php" "GET" st).env = st.env := e1
  rw [e5, e6]

/-- C9, as stated, fails: from the initial state of the contact page, two
successful polls with totals 3 and then 7 make two calls of
`triggerNewMessageNotification`, with counts 3 and 4. -/
theorem unread_first_poll_also_notifies :
    sampleMain.totalUnreadCount = 0 ∧ sampleMain.env.pathIncludesConversationHtml = false ∧
    totalUnread [contactUnread 3] = 3 ∧ totalUnread [contactUnread 7] = 7 ∧
    notificationEvents (loadContacts sampleLocaleCompare (okContacts [contactUnread 3])
      sampleMain) = [3] ∧
    notificationEvents (loadContacts sampleLocaleCompare (okContacts [contactUnread 7])
      (loadContacts sampleLocaleCompare (okContacts [contactUnread 3]) sampleMain)) = [3, 4] := by
  decide

/-- C9, amended. With the user not on the conversation page, for two
consecutive successful contact polls with totals `t1` and then `t2 > t1`, the
second poll makes exactly one call of `triggerNewMessageNotification`, with
count `t2 - t1`.  The first poll makes one call of its own, with the increase
over the total held before it (`0` in the initial state), when its total is
larger; so from the initial state totals 3 and then 7 give the counts 3
and 4. -/
theorem unread_increase_events (lc : String → String → Int) (st : State) (t1 t2 : Transport)
    (r1 r2 : JsonObj)
    (hpage : st.env.pathIncludesConversationHtml = false)
    (hsent : (loadContactsBegin st).2 = true)
    (h1 : (apiCallResume "contacts.php" t1 st).2 = some r1) (hs1 : r1.success = true)
    (h2 : (apiCallResume "contacts.php" t2 st).2 = some r2) (hs2 : r2.success = true)
    (hinc : totalUnread r1.contacts < totalUnread r2.contacts) :
    notificationEvents (loadContacts lc t1 st) = notificationEvents st ++
      (if totalUnread r1.contacts > st.totalUnreadCount
        then [totalUnread r1.contacts - st.totalUnreadCount] else []) ∧
    notificationEvents (loadContacts lc t2 (loadContacts lc t1 st)) =
      notificationEvents (loadContacts lc t1 st) ++
        [totalUnread r2.contacts - totalUnread r1.contacts] ∧
    (st.totalUnreadCount = 0 → notificationEvents st = [] →
      totalUnread r1.contacts = 3 → totalUnread r2.contacts = 7 →
      notificationEvents (loadContacts lc t2 (loadContacts lc t1 st)) = [3, 4]) := by
  have hv1 := loadContacts_success lc t1 st r1 hsent h1 hs1
  have henv : (loadContacts lc t1 st).env = st.env := congrArg ContactView.env hv1
  have hsto : (loadContacts lc t1 st).storage = st.storage := congrArg ContactView.storage hv1
  have htot : (loadContacts lc t1 st).totalUnreadCount = totalUnread r1.contacts :=
    congrArg ContactView.totalUnreadCount hv1
  have hev1 : notificationEvents (loadContacts lc t1 st) = notificationEvents st ++
      (if totalUnread r1.contacts > st.totalUnreadCount
        then [totalUnread r1.contacts - st.totalUnreadCount] else []) := by
    have := congrArg ContactView.events hv1
    simp only [State.contactView, hpage, and_true] at this
    exact this
  have hsent2 : (loadContactsBegin (loadContacts lc t1 st)).2 = true := by
    rw [loadContactsBegin_snd, henv, hsto, ← loadContactsBegin_snd]
    exact hsent
  have hv2 := loadContacts_success lc t2 (loadContacts lc t1 st) r2 hsent2
    ((apiCallResume_snd _ t2 _ st).trans h2) hs2
  have hev2 : notificationEvents (loadContacts lc t2 (loadContacts lc t1 st)) =
      notificationEvents (loadContacts lc t1 st) ++
        [totalUnread r2.contacts - totalUnread r1.contacts] := by
    have := congrArg ContactView.events hv2
    simp only [State.contactView, henv, hpage, htot, and_true] at this
    rw [this, if_pos hinc]
  refine ⟨hev1, hev2, ?_⟩
  intro h0 hnil e1 e2
  rw [hev2, hev1, h0, hnil, e1, e2]
  rfl

theorem unread_increase_events_witness :
    notificationEvents (loadContacts sampleLocaleCompare (okContacts [contactUnread 7])
      (loadContacts sampleLocaleCompare (okContacts [contactUnread 3]) sampleMain)) =
      notificationEvents (loadContacts sampleLocaleCompare (okContacts [contactUnread 3])
        sampleMain) ++ [4] :=
  (unread_increase_events sampleLocaleCompare sampleMain (okContacts [contactUnread 3])
    (okContacts [contactUnread 7])
    { success := true, message := none, messages := [], contacts := [contactUnread 3] }
    { success := true, message := none, messages := [], contacts := [contactUnread 7] }
    (by decide) (by decide) (by decide) (by decide) (by decide) (by decide) (by decide)).2.1

/-! ## Unauthorized responses: claims -/

/-- C10. What the code does on status 401.  `apiCall` returns `null` and the
session store is cleared, and `handleLogout` cancels both timers; but the
continuation of `loadMessages` then arms a new timeout, from whatever state it
resumes in.  On the sample conversation page that timeout is pending after the
cycle, and when it expires `loadMessages(true)` issues one more request, since
`currentContactId` is still set.  On the sample contact page the cycle of
`loadContacts` likewise leaves a pending timeout, whose expiry issues no
request because `user_name` has been cleared. -/
theorem unauthorized_rearms_timer :
    (∀ (st : State) (isPolling : Bool) (url : String) (text : List Char) (parsed : Option Json),
      (apiCallResume url (.response 401 text parsed) st).2 = none ∧
      (apiCallResume url (.response 401 text parsed) st).1.storage = Storage.clear ∧
      (apiCallResume url (.response 401 text parsed) st).1.pollingTimer = none ∧
      (apiCallResume url (.response 401 text parsed) st).1.contactPollingTimer = none ∧
      (loadMessagesResume isPolling url (.response 401 text parsed) st).storage = Storage.clear ∧
      ∃ id, (loadMessagesResume isPolling url (.response 401 text parsed) st).pollingTimer
          = some id ∧
        (id, Callback.loadMessages) ∈
          (loadMessagesResume isPolling url (.response 401 text parsed) st).timers) ∧
    (loadMessages true (.response 401 [] none) sampleChat).timers = [(1, Callback.loadMessages)] ∧
    fetchCount (fireTimer 1 (loadMessages true (.response 401 [] none) sampleChat)) =
      fetchCount (loadMessages true (.response 401 [] none) sampleChat) + 1 ∧
    (loadContacts sampleLocaleCompare (.response 401 [] none) sampleMain).timers =
      [(1, Callback.loadContacts)] ∧
    fetchCount (fireTimer 1 (loadContacts sampleLocaleCompare (.response 401 [] none) sampleMain)) =
      fetchCount (loadContacts sampleLocaleCompare (.response 401 [] none) sampleMain) := by
  refine ⟨?_, by decide, by decide, by decide, by decide⟩
  intro st isPolling url text parsed
  have hp : apiCallResume url (.response 401 text parsed) st = (handleLogout false st, none) := by
    simp [apiCallResume]
  have hst : (handleLogout false st).storage = Storage.clear := handleLogout_false_storage st
  have hpt : (handleLogout false st).pollingTimer = none := by
    unfold handleLogout stopContactPolling stopPolling handleLogoutFinish
    cases st.pollingTimer <;> cases hc : st.contactPollingTimer <;> simp [clearTimeout, hc]
  have hct : (handleLogout false st).contactPollingTimer = none := by
    unfold handleLogout stopContactPolling stopPolling handleLogoutFinish
    simp
  rw [hp]
  refine ⟨rfl, hst, hpt, hct, ?_, ?_⟩
  · unfold loadMessagesResume
    rw [hp]
    simp only [hpt, setTimeout]
    exact hst
  · unfold loadMessagesResume
    rw [hp]
    simp only [hpt, setTimeout]
    exact ⟨_, rfl, by simp⟩

/-! ## HTML escaping: claims -/

theorem replaceAll_append (c : Char) (r a b : List Char) :
    replaceAll c r (a ++ b) = replaceAll c r a ++ replaceAll c r b := by
  simp [replaceAll, List.flatMap_append]

theorem escapeChars_append (a b : List Char) :
    escapeChars (a ++ b) = escapeChars a ++ escapeChars b := by
  simp only [escapeChars, replaceAll_append]

theorem replaceAll_singleton_ne (c : Char) (r : List Char) (x : Char) (h : x ≠ c) :
    replaceAll c r [x] = [x] := by
  simp [replaceAll, h]

theorem escapeChars_singleton (x : Char) : escapeChars [x] = escapeChar x := by
  unfold escapeChar
  by_cases h1 : x = '&'
  · subst h1
    decide
  by_cases h2 : x = '<'
  · subst h2
    decide
  by_cases h3 : x = '>'
  · subst h3
    decide
  by_cases h4 : x = quoteChar
  · subst h4
    decide
  by_cases h5 : x = aposChar
  · subst h5
    decide
  rw [if_neg h1, if_neg h2, if_neg h3, if_neg h4, if_neg h5]
  unfold escapeChars
  rw [replaceAll_singleton_ne _ _ _ h1, replaceAll_singleton_ne _ _ _ h2,
    replaceAll_singleton_ne _ _ _ h3, replaceAll_singleton_ne _ _ _ h4,
    replaceAll_singleton_ne _ _ _ h5]

theorem escapeChars_cons (x : Char) (xs : List Char) :
    escapeChars (x :: xs) = escapeChar x ++ escapeChars xs := by
  have : x :: xs = [x] ++ xs := rfl
  rw [this, escapeChars_append, escapeChars_singleton]

theorem escapeChars_nil : escapeChars [] = [] := rfl

theorem escapeChar_cases (x : Char) :
    (x = '&' ∧ escapeChar x = ampEntity) ∨ (x = '<' ∧ escapeChar x = ltEntity) ∨
    (x = '>' ∧ escapeChar x = gtEntity) ∨ (x = quoteChar ∧ escapeChar x = quotEntity) ∨
    (x = aposChar ∧ escapeChar x = aposEntity) ∨
    ((x ≠ '&' ∧ x ≠ '<' ∧ x ≠ '>' ∧ x ≠ quoteChar ∧ x ≠ aposChar) ∧ escapeChar x = [x]) := by
  unfold escapeChar
  by_cases h1 : x = '&'
  · exact Or.inl ⟨h1, by rw [if_pos h1]⟩
  by_cases h2 : x = '<'
  · exact Or.inr (Or.inl ⟨h2, by rw [if_neg h1, if_pos h2]⟩)
  by_cases h3 : x = '>'
  · exact Or.inr (Or.inr (Or.inl ⟨h3, by rw [if_neg h1, if_neg h2, if_pos h3]⟩))
  by_cases h4 : x = quoteChar
  · exact Or.inr (Or.inr (Or.inr (Or.inl
      ⟨h4, by rw [if_neg h1, if_neg h2, if_neg h3, if_pos h4]⟩)))
  by_cases h5 : x = aposChar
  · exact Or.inr (Or.inr (Or.inr (Or.inr (Or.inl
      ⟨h5, by rw [if_neg h1, if_neg h2, if_neg h3, if_neg h4, if_pos h5]⟩))))
  · exact Or.inr (Or.inr (Or.inr (Or.inr (Or.inr
      ⟨⟨h1, h2, h3, h4, h5⟩,
        by rw [if_neg h1, if_neg h2, if_neg h3, if_neg h4, if_neg h5]⟩))))

theorem escapeChar_clean (x c : Char) (hc : c ∈ escapeChar x) :
    c ≠ '<' ∧ c ≠ '>' ∧ c ≠ quoteChar ∧ c ≠ aposChar := by
  have hent : ∀ e ∈ [ampEntity, ltEntity, gtEntity, quotEntity, aposEntity], ∀ d ∈ e,
      d ≠ '<' ∧ d ≠ '>' ∧ d ≠ quoteChar ∧ d ≠ aposChar := by decide
  rcases escapeChar_cases x with ⟨_, h⟩ | ⟨_, h⟩ | ⟨_, h⟩ | ⟨_, h⟩ | ⟨_, h⟩ | ⟨hx, h⟩
  · exact hent ampEntity (by simp) c (h ▸ hc)
  · exact hent ltEntity (by simp) c (h ▸ hc)
  · exact hent gtEntity (by simp) c (h ▸ hc)
  · exact hent quotEntity (by simp) c (h ▸ hc)
  · exact hent aposEntity (by simp) c (h ▸ hc)
  · rw [h, List.mem_singleton] at hc
    subst hc
    exact hx.2

theorem escapeChars_clean (s : List Char) (c : Char) (hc : c ∈ escapeChars s) :
    c ≠ '<' ∧ c ≠ '>' ∧ c ≠ quoteChar ∧ c ≠ aposChar := by
  induction s with
  | nil => simp [escapeChars_nil] at hc
  | cons x xs ih =>
    rw [escapeChars_cons, List.mem_append] at hc
    rcases hc with h | h
    · exact escapeChar_clean x c h
    · exact ih h

theorem escapeChar_ampersand (x : Char) (i : Nat) (h : (escapeChar x)[i]? = some '&') :
    i = 0 ∧ ∃ e ∈ entityTable, e.1 = escapeChar x := by
  have hent : ∀ e ∈ entityTable, ∀ j < 6, e.1[j]? = some '&' → j = 0 := by decide
  have hlen : ∀ e ∈ entityTable, e.1.length ≤ 6 := by decide
  have key : ∀ e ∈ entityTable, escapeChar x = e.1 → i = 0 ∧ ∃ e ∈ entityTable, e.1 = escapeChar x := by
    intro e he hx
    rw [hx] at h
    have hi : i < e.1.length := by
      by_contra hge
      rw [List.getElem?_eq_none (not_lt.mp hge)] at h
      exact Option.noConfusion h
    exact ⟨hent e he i (lt_of_lt_of_le hi (hlen e he)) h, e, he, hx.symm⟩
  rcases escapeChar_cases x with ⟨_, hx⟩ | ⟨_, hx⟩ | ⟨_, hx⟩ | ⟨_, hx⟩ | ⟨_, hx⟩ | ⟨hne, hx⟩
  · exact key (ampEntity, '&') (by simp [entityTable]) hx
  · exact key (ltEntity, '<') (by simp [entityTable]) hx
  · exact key (gtEntity, '>') (by simp [entityTable]) hx
  · exact key (quotEntity, quoteChar) (by simp [entityTable]) hx
  · exact key (aposEntity, aposChar) (by simp [entityTable]) hx
  · rw [hx] at h
    exfalso
    cases i with
    | zero =>
      simp only [List.getElem?_cons_zero, Option.some.injEq] at h
      exact hne.1 h
    | succ j => simp at h

theorem escapeChars_ampersand (s : List Char) (i : Nat)
    (h : (escapeChars s)[i]? = some '&') :
    ∃ e ∈ entityTable, e.1 <+: (escapeChars s).drop i := by
  induction s generalizing i with
  | nil => simp [escapeChars_nil] at h
  | cons x xs ih =>
    rw [escapeChars_cons] at h ⊢
    by_cases hi : i < (escapeChar x).length
    · rw [List.getElem?_append_left hi] at h
      obtain ⟨h0, e, he, hx⟩ := escapeChar_ampersand x i h
      subst h0
      exact ⟨e, he, by rw [List.drop_zero, ← hx]; exact List.prefix_append _ _⟩
    · have hle : (escapeChar x).length ≤ i := not_lt.mp hi
      rw [List.getElem?_append_right hle] at h
      obtain ⟨e, he, hp⟩ := ih _ h
      refine ⟨e, he, ?_⟩
      rw [List.drop_append_eq_append_drop, List.drop_eq_nil_of_le hle, List.nil_append]
      exact hp

theorem unescapeAux_skip (pre rest : List Char) :
    unescapeAux pre.length (pre ++ rest) = unescapeAux 0 rest := by
  induction pre with
  | nil => rfl
  | cons p ps ih =>
    simp only [List.length_cons, List.cons_append, unescapeAux]
    exact ih

theorem unescapeAux_entity (e : List Char × Char) (he : e ∈ entityTable) (rest : List Char) :
    unescapeAux 0 (e.1 ++ rest) = e.2 :: unescapeAux 0 rest := by
  have hat : entityAt (e.1 ++ rest) = some e := by
    simp only [entityTable, List.mem_cons, List.mem_singleton, List.not_mem_nil, or_false] at he
    rcases he with rfl | rfl | rfl | rfl | rfl <;>
      simp [entityAt, entityTable, ampEntity, ltEntity, gtEntity, quotEntity, aposEntity,
        beginsWith, List.find?]
  have hshape : ∃ c tail, e.1 = c :: tail := by
    simp only [entityTable, List.mem_cons, List.mem_singleton, List.not_mem_nil, or_false] at he
    rcases he with rfl | rfl | rfl | rfl | rfl <;> exact ⟨_, _, rfl⟩
  obtain ⟨c, tail, hct⟩ := hshape
  rw [hct] at hat ⊢
  simp only [List.cons_append] at hat ⊢
  simp only [unescapeAux, hat, hct, List.length_cons, Nat.add_sub_cancel]
  rw [unescapeAux_skip]

theorem unescapeAux_plain (x : Char) (hx : x ≠ '&') (rest : List Char) :
    unescapeAux 0 (x :: rest) = x :: unescapeAux 0 rest := by
  have hb : ('&' == x) = false := by
    rw [beq_eq_false_iff_ne]
    exact fun h => hx h.symm
  have hat : entityAt (x :: rest) = none := by
    simp [entityAt, entityTable, ampEntity, ltEntity, gtEntity, quotEntity, aposEntity,
      beginsWith, List.find?, hb]
  simp only [unescapeAux, hat]

theorem unescape_escapeChars (s : List Char) : unescapeHtml (escapeChars s) = s := by
  unfold unescapeHtml
  induction s with
  | nil => rfl
  | cons x xs ih =>
    rw [escapeChars_cons]
    rcases escapeChar_cases x with ⟨h, hx⟩ | ⟨h, hx⟩ | ⟨h, hx⟩ | ⟨h, hx⟩ | ⟨h, hx⟩ | ⟨hne, hx⟩
    · rw [hx, unescapeAux_entity (ampEntity, '&') (by simp [entityTable]), ih, h]
    · rw [hx, unescapeAux_entity (ltEntity, '<') (by simp [entityTable]), ih, h]
    · rw [hx, unescapeAux_entity (gtEntity, '>') (by simp [entityTable]), ih, h]
    · rw [hx, unescapeAux_entity (quotEntity, quoteChar) (by simp [entityTable]), ih, h]
    · rw [hx, unescapeAux_entity (aposEntity, aposChar) (by simp [entityTable]), ih, h]
    · rw [hx, List.singleton_append, unescapeAux_plain x hne.1, ih]

theorem escapeHtml_data (s : String) : (escapeHtml (some s)).data = escapeChars s.data := by
  unfold escapeHtml
  by_cases h : s = ""
  · subst h
    rfl
  · simp only [h, if_false]

/-- C15. For every string `text`, `escapeHtml(text)` contains none of the
characters `<`, `>`, double quote and single quote; every `&` in it starts one
of the five entities `&amp;` `&lt;` `&gt;` `&quot;` `&#039;`; replacing the
entities by the characters they stand for gives `text` back; and the result
for an empty or an absent text is the empty string. -/
theorem escapeHtml_safe_and_invertible (text : String) :
    (∀ c ∈ (escapeHtml (some text)).data,
      c ≠ '<' ∧ c ≠ '>' ∧ c ≠ quoteChar ∧ c ≠ aposChar) ∧
    (∀ i : Nat, (escapeHtml (some text)).data[i]? = some '&' →
      ∃ e ∈ entityTable, e.1 <+: (escapeHtml (some text)).data.drop i) ∧
    unescapeHtml (escapeHtml (some text)).data = text.data ∧
    escapeHtml (some "") = "" ∧ escapeHtml none = "" := by
  rw [escapeHtml_data]
  exact ⟨fun c hc => escapeChars_clean _ c hc, fun i h => escapeChars_ampersand _ i h,
    unescape_escapeChars _, rfl, rfl⟩

theorem escapeHtml_safe_and_invertible_witness :
    escapeHtml (some "<a href='x'>R&D</a>") =
      "&lt;a href=&#039;x&#039;&gt;R&amp;D&lt;/a&gt;" ∧
    unescapeHtml (escapeHtml (some "<a href='x'>R&D</a>")).data = "<a href='x'>R&D</a>".data :=
  ⟨by decide, (escapeHtml_safe_and_invertible "<a href='x'>R&D</a>").2.2.1⟩

/-! ## Notification engine: claims -/

theorem triggerBuzzEffect_eq (st : State) :
    triggerBuzzEffect st = { st with effects := st.effects ++ buzzEffects st } := by
  obtain ⟨env, pt, cpt, lm, cc, tu, storage, timers, nt, rendered, rows, ph, sb, href, effects⟩ := st
  unfold triggerBuzzEffect shakeElement emit buzzEffects
  cases h1 : (env.hasAudioContext && storage.twin_sound_enabled == some "true") <;>
    cases h2 : env.canVibrate <;> cases h3 : env.hasChatBox <;> simp [h1, h2, h3]

theorem displayMessage_new (msg : Msg) (st : State) (hbox : st.env.hasChatBox = true)
    (hnew : msg.id ∉ renderedIds st) :
    displayMessage msg st =
      { st with effects := st.effects ++
                  (if isUnreadIncomingBuzz msg = true then buzzEffects st else []),
                rendered := st.rendered ++ [msg] } := by
  have hany : st.rendered.any (fun m => m.id == msg.id) = false := by
    rw [Bool.eq_false_iff]
    intro h
    obtain ⟨m, hm1, hm2⟩ := List.any_eq_true.mp h
    exact hnew (List.mem_map.mpr ⟨m, hm1, by simpa using hm2⟩)
  unfold displayMessage isUnreadIncomingBuzz
  simp only [hbox, hany, Bool.not_true, Bool.false_eq_true, if_false]
  cases hb : msg.is_buzz <;> cases hm : msg.is_mine <;> cases hr : msg.is_read <;>
    simp [triggerBuzzEffect_eq]

theorem calledBuzzEffect_mem_buzzEffects (st : State) :
    Effect.calledBuzzEffect ∈ buzzEffects st := by
  simp [buzzEffects]

theorem acceptMessage_effects (st : State) (msg : Msg) :
    (acceptMessage st msg).effects = (displayMessage msg st).effects := by
  unfold acceptMessage
  simp only []
  split <;> rfl

/-- C11. When `displayMessage` accepts a new message on a page with a chat
box, `triggerBuzzEffect` is called exactly when the message is a buzz, is not
the user's own and is unread; it then emits the buzz alert (tone B, vibration,
shake) and otherwise nothing at all is emitted.  A message with `is_mine` set
emits nothing, in `displayMessage` and in the `forEach` body of the message
loop alike. -/
theorem buzz_alert_iff_unread_incoming_buzz (st : State) (msg : Msg)
    (hbox : st.env.hasChatBox = true) (hnew : msg.id ∉ renderedIds st) :
    (displayMessage msg st).effects = st.effects ++
      (if msg.is_buzz = true ∧ msg.is_mine = false ∧ msg.is_read = false
        then buzzEffects st else []) ∧
    (Effect.calledBuzzEffect ∈ (displayMessage msg st).effects.drop st.effects.length ↔
      msg.is_buzz = true ∧ msg.is_mine = false ∧ msg.is_read = false) ∧
    (acceptMessage st msg).effects = (displayMessage msg st).effects ∧
    (msg.is_mine = true → (displayMessage msg st).effects = st.effects ∧
      (acceptMessage st msg).effects = st.effects) := by
  have hcond : isUnreadIncomingBuzz msg = true ↔
      msg.is_buzz = true ∧ msg.is_mine = false ∧ msg.is_read = false := by
    unfold isUnreadIncomingBuzz
    cases msg.is_buzz <;> cases msg.is_mine <;> cases msg.is_read <;> simp
  have heff : (displayMessage msg st).effects = st.effects ++
      (if msg.is_buzz = true ∧ msg.is_mine = false ∧ msg.is_read = false
        then buzzEffects st else []) := by
    rw [displayMessage_new msg st hbox hnew]
    by_cases hc : isUnreadIncomingBuzz msg = true
    · rw [if_pos hc, if_pos (hcond.mp hc)]
    · rw [if_neg hc, if_neg (fun h => hc (hcond.mpr h))]
  refine ⟨heff, ?_, acceptMessage_effects st msg, ?_⟩
  · rw [heff, List.drop_left]
    by_cases hc : msg.is_buzz = true ∧ msg.is_mine = false ∧ msg.is_read = false
    · rw [if_pos hc]
      exact ⟨fun _ => hc, fun _ => calledBuzzEffect_mem_buzzEffects st⟩
    · rw [if_neg hc]
      exact ⟨fun h => absurd h (List.not_mem_nil _), fun h => absurd h hc⟩
  · intro hmine
    have hc : ¬ (msg.is_buzz = true ∧ msg.is_mine = false ∧ msg.is_read = false) := by
      intro h
      rw [hmine] at h
      exact Bool.noConfusion h.2.1
    have h1 : (displayMessage msg st).effects = st.effects := by
      rw [heff, if_neg hc, List.append_nil]
    exact ⟨h1, by rw [acceptMessage_effects, h1]⟩

theorem buzz_alert_iff_unread_incoming_buzz_witness :
    (displayMessage { sampleMsg 9 with is_buzz := true } sampleChat).effects =
      sampleChat.effects ++ [Effect.calledBuzzEffect, Effect.toneB, Effect.vibrate,
        Effect.shake 10 8 true] ∧
    (displayMessage { sampleMsg 9 with is_buzz := true, is_mine := true } sampleChat).effects =
      sampleChat.effects :=
  ⟨(buzz_alert_iff_unread_incoming_buzz sampleChat { sampleMsg 9 with is_buzz := true }
      (by decide) (by decide)).1.trans (by decide),
   ((buzz_alert_iff_unread_incoming_buzz sampleChat
      { sampleMsg 9 with is_buzz := true, is_mine := true } (by decide) (by decide)).2.2.2
      rfl).1⟩

theorem buzzEffects_toneA (st : State) : (buzzEffects st).count Effect.toneA = 0 := by
  unfold buzzEffects
  cases (st.env.hasAudioContext && st.storage.twin_sound_enabled == some "true") <;>
    cases st.env.canVibrate <;> cases st.env.hasChatBox <;> decide

theorem displayMessage_toneACount (msg : Msg) (st : State) :
    toneACount (displayMessage msg st) = toneACount st := by
  rcases displayMessage_cases msg st with ⟨h, _⟩ | ⟨_, _, hb, hm⟩
  · rw [h]
  · rw [displayMessage_new msg st hb hm]
    unfold toneACount
    simp only [List.count_append]
    split_ifs
    · rw [buzzEffects_toneA]
      rfl
    · rfl

theorem acceptMessage_toneACount (st : State) (msg : Msg) :
    toneACount (acceptMessage st msg) = toneACount st := by
  have h := acceptMessage_effects st msg
  unfold toneACount at *
  rw [h]
  exact displayMessage_toneACount msg st

theorem foldl_acceptMessage_toneACount (ms : List Msg) (st : State) :
    toneACount (ms.foldl acceptMessage st) = toneACount st := by
  induction ms generalizing st with
  | nil => rfl
  | cons m ms ih => rw [List.foldl_cons, ih, acceptMessage_toneACount]

theorem ite_scrollToBottom_toneACount (c : Bool) (st : State) :
    toneACount (if c = true then scrollToBottom st else st) = toneACount st := by
  cases c
  · rfl
  · unfold scrollToBottom
    cases st.env.hasChatBox
    · rfl
    · simp [toneACount, emit, List.count_append]

theorem rearmPolling_toneACount (st : State) :
    toneACount ({ (setTimeout .loadMessages (match st.pollingTimer with
        | some id => clearTimeout id st
        | none => st)).1 with
        pollingTimer := some (setTimeout .loadMessages (match st.pollingTimer with
        | some id => clearTimeout id st
        | none => st)).2 } : State) = toneACount st := by
  cases st.pollingTimer <;> rfl

theorem handleLogout_false_toneACount (st : State) :
    toneACount (handleLogout false st) = toneACount st := by
  unfold handleLogout stopContactPolling stopPolling handleLogoutFinish
  cases st.pollingTimer <;> cases hc : st.contactPollingTimer <;>
    simp [toneACount, clearTimeout, hc]

theorem loadMessagesResume_toneACount (isPolling : Bool) (url : String) (t : Transport)
    (st : State) :
    toneACount (loadMessagesResume isPolling url t st) = toneACount st := by
  unfold loadMessagesResume
  rcases apiCallResume_spec url t st with ⟨o, h, _⟩ | ⟨h, _, _⟩
  · rw [h]
    simp only []
    rw [rearmPolling_toneACount]
    by_cases hs : o.success = true
    · simp only [hs, if_true]
      by_cases hl : o.messages.length > 0
      · simp only [hl, if_true]
        rw [ite_scrollToBottom_toneACount, foldl_acceptMessage_toneACount]
      · simp only [hl, if_false]
    · simp only [Bool.not_eq_true] at hs
      simp only [hs, Bool.false_eq_true, if_false]
  · rw [h]
    simp only []
    rw [rearmPolling_toneACount, handleLogout_false_toneACount]

theorem loadMessages_toneACount (isPolling : Bool) (t : Transport) (st : State) :
    toneACount (loadMessages isPolling t st) = toneACount st := by
  unfold loadMessages
  split
  · rfl
  · simp only []
    rw [loadMessagesResume_toneACount]
    simp [toneACount, apiCallBegin, emit, List.count_append]

/-- C12, as stated, fails: with the sound preference on and an audio context
present, a cycle of the message loop accepts a new plain message from the
contact and no tone A is played. -/
theorem incoming_text_plays_no_tone :
    sampleChat.storage.twin_sound_enabled = some "true" ∧
    sampleChat.env.hasAudioContext = true ∧
    (sampleMsg 3).is_mine = false ∧ isUnreadIncomingBuzz (sampleMsg 3) = false ∧
    (loadMessages true (okMessages [sampleMsg 3]) sampleChat).rendered = [sampleMsg 3] ∧
    Effect.toneA ∉ (loadMessages true (okMessages [sampleMsg 3]) sampleChat).effects := by
  decide

/-- C12, amended. Accepting a message that is not an unread incoming buzz
emits nothing: `displayMessage` and the `forEach` body of the message loop
leave the emitted effects as they were, whatever the sound preference.  No
cycle of the message loop ever plays tone A; `playNotificationSound` plays it,
when the preference is on and an audio context exists, and the message loop
does not call it. -/
theorem incoming_text_is_silent (st : State) (msg : Msg)
    (hplain : isUnreadIncomingBuzz msg = false) :
    (displayMessage msg st).effects = st.effects ∧
    (acceptMessage st msg).effects = st.effects ∧
    (∀ (isPolling : Bool) (t : Transport) (s : State),
      toneACount (loadMessages isPolling t s) = toneACount s) ∧
    (∀ s : State, s.storage.twin_sound_enabled = some "true" → s.env.hasAudioContext = true →
      (playNotificationSound s).effects = s.effects ++ [Effect.toneA]) := by
  have h1 : (displayMessage msg st).effects = st.effects := by
    rcases displayMessage_cases msg st with ⟨h, _⟩ | ⟨_, _, hb, hm⟩
    · rw [h]
    · rw [displayMessage_new msg st hb hm, hplain]
      simp
  refine ⟨h1, by rw [acceptMessage_effects, h1], loadMessages_toneACount, ?_⟩
  intro s hs ha
  unfold playNotificationSound
  simp [hs, ha, emit]

theorem incoming_text_is_silent_witness :
    (acceptMessage sampleChat (sampleMsg 3)).effects = sampleChat.effects :=
  (incoming_text_is_silent sampleChat (sampleMsg 3) (by decide)).2.1

/-- C13, as stated, fails: with the sound preference stored as `'false'`,
`triggerNewMessageNotification(4)` still raises the OS notification when the
permission is granted, and `triggerBuzzEffect()` still vibrates. -/
theorem muted_still_notifies_and_vibrates :
    sampleMuted.storage.twin_sound_enabled = some "false" ∧
    Effect.osNotice 4 ∈ (triggerNewMessageNotification 4 sampleMuted).effects ∧
    Effect.vibrate ∈ (triggerBuzzEffect sampleMuted).effects := by
  decide

/-- C13, amended. When the stored preference is not `'true'`, neither
`triggerNewMessageNotification` nor `triggerBuzzEffect` plays a tone, whatever
the permission state.  The OS notification depends on the permission alone and
the vibration on `navigator.vibrate` alone: with the preference off,
`triggerNewMessageNotification(count)` emits exactly the OS notification when
the permission is `granted`, and `triggerBuzzEffect()` exactly the vibration,
when available, and the shake. -/
theorem muted_plays_no_tone (st : State) (count : Nat)
    (hoff : st.storage.twin_sound_enabled ≠ some "true") :
    playNotificationSound st = st ∧
    (triggerNewMessageNotification count st).effects =
      st.effects ++ [Effect.calledNewMessage count] ++
        (if st.env.notificationPermission = some "granted"
          then [Effect.osNotice count] else []) ∧
    (triggerBuzzEffect st).effects =
      st.effects ++ [Effect.calledBuzzEffect] ++
        (if st.env.canVibrate = true then [Effect.vibrate] else []) ++
        (if st.env.hasChatBox = true then [Effect.shake 10 8 true] else []) ∧
    Effect.toneA ∉ (triggerNewMessageNotification count st).effects.drop st.effects.length ∧
    Effect.toneB ∉ (triggerNewMessageNotification count st).effects.drop st.effects.length ∧
    Effect.toneA ∉ (triggerBuzzEffect st).effects.drop st.effects.length ∧
    Effect.toneB ∉ (triggerBuzzEffect st).effects.drop st.effects.length := by
  have hne : (st.storage.twin_sound_enabled != some "true") = true := by
    rw [bne_iff_ne]
    exact hoff
  have heq : (st.storage.twin_sound_enabled == some "true") = false := by
    rw [beq_eq_false_iff_ne]
    exact hoff
  have hplay : ∀ s : State, s.storage = st.storage → playNotificationSound s = s := by
    intro s hs
    unfold playNotificationSound
    rw [hs, if_pos hne]
  have hnew : (triggerNewMessageNotification count st).effects =
      st.effects ++ [Effect.calledNewMessage count] ++
        (if st.env.notificationPermission = some "granted"
          then [Effect.osNotice count] else []) := by
    unfold triggerNewMessageNotification
    simp only []
    rw [hplay (emit (.calledNewMessage count) st) rfl]
    by_cases hp : st.env.notificationPermission = some "granted"
    · simp [emit, hp]
    · have : (st.env.notificationPermission == some "granted") = false := by
        rw [beq_eq_false_iff_ne]
        exact hp
      simp [emit, hp, this]
  have hbuzz : (triggerBuzzEffect st).effects =
      st.effects ++ [Effect.calledBuzzEffect] ++
        (if st.env.canVibrate = true then [Effect.vibrate] else []) ++
        (if st.env.hasChatBox = true then [Effect.shake 10 8 true] else []) := by
    rw [triggerBuzzEffect_eq]
    unfold buzzEffects
    simp only [heq, Bool.and_false, Bool.false_eq_true, if_false, List.append_nil,
      List.append_assoc]
  refine ⟨hplay st rfl, hnew, hbuzz, ?_, ?_, ?_, ?_⟩
  · rw [hnew, List.append_assoc, List.drop_left]
    split_ifs <;> simp
  · rw [hnew, List.append_assoc, List.drop_left]
    split_ifs <;> simp
  · rw [hbuzz, List.append_assoc, List.append_assoc, List.drop_left]
    split_ifs <;> simp
  · rw [hbuzz, List.append_assoc, List.append_assoc, List.drop_left]
    split_ifs <;> simp

theorem muted_plays_no_tone_witness :
    (triggerNewMessageNotification 4 sampleMuted).effects =
      sampleMuted.effects ++ [Effect.calledNewMessage 4, Effect.osNotice 4] ∧
    (triggerBuzzEffect sampleMuted).effects =
      sampleMuted.effects ++ [Effect.calledBuzzEffect, Effect.vibrate, Effect.shake 10 8 true] :=
  ⟨(muted_plays_no_tone sampleMuted 4 (by decide)).2.1.trans (by decide),
   (muted_plays_no_tone sampleMuted 4 (by decide)).2.2.1.trans (by decide)⟩

/-! ## Transport adapter: claims -/

/-- C14, as stated, fails: a `200` response whose body is the valid JSON text
`null` is not markup and parses, yet `apiCall` does not return the parsed
value; reading `json.success` throws inside the `try` and a failure value is
returned. -/
theorem json_null_body_gives_failure :
    startsWithMarkup ['n', 'u', 'l', 'l'] = false ∧
    apiCallResume "contacts.php" (.response 200 ['n', 'u', 'l', 'l'] (some Json.null)) sampleMain =
      (sampleMain, some (failure "Respuesta inválida del servidor")) ∧
    (failure "Respuesta inválida del servidor").success = false := by
  decide

/-- C14, amended. `apiCall` always returns a value, classified in this order:
status 403 gives a failure value; status 401 clears the session and gives
`null`; status 404 gives a failure value; otherwise a body whose trimmed text
begins with `<` gives a failure value; otherwise a body that is not valid JSON,
or that is the JSON value `null`, gives a failure value; otherwise the parsed
JSON is returned unchanged; a network-level failure gives a failure value.
`null` is returned only for status 401, and only then is the state changed. -/
theorem apiCall_classification (url : String) (st : State) :
    (∀ text parsed, apiCallResume url (.response 403 text parsed) st =
      (st, some (failure "Acceso prohibido. Verifica permisos del servidor."))) ∧
    (∀ text parsed, apiCallResume url (.response 401 text parsed) st =
        (handleLogout false st, none) ∧
      (handleLogout false st).storage = Storage.clear) ∧
    (∀ text parsed, apiCallResume url (.response 404 text parsed) st =
      (st, some (failure ("Endpoint no encontrado: " ++ url)))) ∧
    (∀ status text parsed, status ≠ 403 → status ≠ 401 → status ≠ 404 →
      startsWithMarkup text = true →
      apiCallResume url (.response status text parsed) st =
        (st, some (failure "Error del servidor. Revisa los logs de PHP."))) ∧
    (∀ status text parsed, status ≠ 403 → status ≠ 401 → status ≠ 404 →
      startsWithMarkup text = false → (parsed = none ∨ parsed = some Json.null) →
      apiCallResume url (.response status text parsed) st =
        (st, some (failure "Respuesta inválida del servidor"))) ∧
    (∀ status text json, status ≠ 403 → status ≠ 401 → status ≠ 404 →
      startsWithMarkup text = false →
      apiCallResume url (.response status text (some (Json.value json))) st =
        (st, some json)) ∧
    (∀ failedToFetch message, ∃ text,
      apiCallResume url (.networkError failedToFetch message) st = (st, some (failure text))) ∧
    (∀ text, (failure text).success = false) ∧
    (∀ t, (apiCallResume url t st).2 = none ↔ ∃ text parsed, t = .response 401 text parsed) ∧
    (∀ t, (apiCallResume url t st).2 ≠ none → (apiCallResume url t st).1 = st) := by
  refine ⟨?_, ?_, ?_, ?_, ?_, ?_, ?_, ?_, ?_, ?_⟩
  · intro text parsed
    simp [apiCallResume]
  · intro text parsed
    exact ⟨by simp [apiCallResume], handleLogout_false_storage st⟩
  · intro text parsed
    simp [apiCallResume]
  · intro status text parsed h1 h2 h3 hm
    simp [apiCallResume, h1, h2, h3, hm]
  · intro status text parsed h1 h2 h3 hm hp
    rcases hp with rfl | rfl <;> simp [apiCallResume, h1, h2, h3, hm]
  · intro status text json h1 h2 h3 hm
    simp [apiCallResume, h1, h2, h3, hm]
  · intro f message
    cases f
    · exact ⟨"Error de conexión: " ++ message, by simp [apiCallResume]⟩
    · exact ⟨"No se pudo conectar al servidor. Verifica la URL y CORS.",
        by simp [apiCallResume]⟩
  · intro text
    rfl
  · intro t
    constructor
    · intro h
      rcases apiCallResume_spec url t st with ⟨o, ho, _⟩ | ⟨_, _, hex⟩
      · rw [ho] at h
        exact Option.noConfusion h
      · exact hex
    · rintro ⟨text, parsed, rfl⟩
      simp [apiCallResume]
  · intro t h
    rw [apiCallResume_fst, if_neg h]

theorem apiCall_classification_witness :
    apiCallResume "contacts.php" (.response 500 ['<', 'h', '1', '>'] none) sampleMain =
      (sampleMain, some (failure "Error del servidor. Revisa los logs de PHP.")) ∧
    apiCallResume "contacts.php" (okContacts [contactA]) sampleMain =
      (sampleMain, some { success := true, message := none, messages := [],
                          contacts := [contactA] }) :=
  ⟨(apiCall_classification "contacts.php" sampleMain).2.2.2.1 500 ['<', 'h', '1', '>'] none
      (by decide) (by decide) (by decide) (by decide),
   (apiCall_classification "contacts.php" sampleMain).2.2.2.2.2.1 200 [] _
      (by decide) (by decide) (by decide) (by decide)⟩

end TwinMsg
